import Mathlib

/-!
# Verification of the asmopt x86-64 assembly peephole optimizer

A shallow embedding of the core of `src/asmopt.c` (lexer, operand
classifier, peephole pattern engine, driver loop, IR and CFG builders),
together with theorems settling the frozen claims about the program.

Text is modelled as `List Char`.  ASCII character classification mirrors
the C `<ctype.h>` functions as used by the source.  Memory allocation is
modelled as infallible (the claims concern the default success path).
-/

namespace Asmopt

abbrev CStr := List Char

def str (s : String) : CStr := s.toList

/-- C `isspace` on ASCII: space, tab, newline, vertical tab, form feed, carriage return. -/
def isSpC (c : Char) : Bool :=
  c = ' ' || c = '\t' || c = '\n' || c = Char.ofNat 11 || c = Char.ofNat 12 || c = '\r'

/-- C `isdigit`. -/
def isDigitC (c : Char) : Bool := '0' ≤ c && c ≤ '9'

/-- C `isalpha` on ASCII. -/
def isAlphaC (c : Char) : Bool := ('a' ≤ c && c ≤ 'z') || ('A' ≤ c && c ≤ 'Z')

/-- C `isalnum` on ASCII. -/
def isAlnumC (c : Char) : Bool := isAlphaC c || isDigitC c

/-- C `tolower` on ASCII. -/
def toLowerC (c : Char) : Char :=
  if 'A' ≤ c && c ≤ 'Z' then Char.ofNat (c.toNat + 32) else c

/-- Hex digit test, as accepted by `strtol` with base 16. -/
def isHexDigitC (c : Char) : Bool :=
  isDigitC c || ('a' ≤ c && c ≤ 'f') || ('A' ≤ c && c ≤ 'F')

/-- Octal digit test, for `strtol` with base 8. -/
def isOctDigitC (c : Char) : Bool := '0' ≤ c && c ≤ '7'

def digitValC (c : Char) : Nat :=
  if isDigitC c then c.toNat - '0'.toNat
  else if 'a' ≤ c && c ≤ 'f' then c.toNat - 'a'.toNat + 10
  else if 'A' ≤ c && c ≤ 'F' then c.toNat - 'A'.toNat + 10
  else 0

/-- `asmopt_starts_with` (case sensitive). -/
def startsWith (value pre : CStr) : Bool := value.take pre.length = pre

/-- `asmopt_is_blank`: only whitespace (or empty). -/
def isBlank (value : CStr) : Bool := value.all isSpC

/-- `asmopt_casecmp` result compared with zero: case-insensitive equality. -/
def caseEq (l r : CStr) : Bool := l.map toLowerC = r.map toLowerC

/-- `asmopt_case_prefix_len`: case-insensitive prefix test. -/
def casePrefixLen (value pre : CStr) : Bool :=
  (value.take pre.length).map toLowerC = pre.map toLowerC

/-- `asmopt_strip`: drop leading and trailing C whitespace. -/
def strip (value : CStr) : CStr :=
  ((value.dropWhile isSpC).reverse.dropWhile isSpC).reverse

/-- `asmopt_trim_comment`: drop leading whitespace only. -/
def trimComment (value : CStr) : CStr := value.dropWhile isSpC

/-- `asmopt_split_comment`: the comment begins at the first `;` or `#`
anywhere in the line and includes the marker. -/
def splitComment : CStr → CStr × CStr
  | [] => ([], [])
  | c :: cs =>
      if c = ';' || c = '#' then ([], c :: cs)
      else
        let r := splitComment cs
        (c :: r.1, r.2)

/-- `asmopt_is_directive_or_label`: after stripping leading whitespace,
empty, starts with `.`, or ends with `:` (trailing spaces not stripped). -/
def isDirectiveOrLabel (code : CStr) : Bool :=
  let trimmed := code.dropWhile isSpC
  match trimmed with
  | [] => true
  | c :: _ =>
      c = '.' || (match trimmed.getLast? with
                  | some l => l = ':'
                  | none => false)

/-- Mnemonic characters: `[A-Za-z0-9.]` (after the initial letter check). -/
def isMnemC (c : Char) : Bool := isAlnumC c || c = '.'

/-- `asmopt_parse_instruction`: split code into indent, mnemonic, spacing,
operands.  Fails when the first non-space character is not a letter. -/
def parseInstruction (code : CStr) : Option (CStr × CStr × CStr × CStr) :=
  let indent := code.takeWhile isSpC
  let rest := code.dropWhile isSpC
  match rest with
  | [] => none
  | c :: _ =>
      if isAlphaC c then
        let mnemonic := rest.takeWhile isMnemC
        let rest2 := rest.dropWhile isMnemC
        let spacing := rest2.takeWhile isSpC
        let operands := rest2.dropWhile isSpC
        some (indent, mnemonic, spacing, operands)
      else none

/-- Split a list at the first occurrence of `,`: `(before, after)`;
`none` when there is no comma (mirrors `strchr(operands, ',')`). -/
def splitAtComma : CStr → Option (CStr × CStr)
  | [] => none
  | c :: cs =>
      if c = ',' then some ([], cs)
      else match splitAtComma cs with
        | none => none
        | some (l, r) => some (c :: l, r)

/-- `asmopt_parse_operands`: split on the first comma, retaining the
whitespace on each side of it (`pre_space`, `post_space`) and the trimmed
operands. -/
def parseOperands (operands : CStr) : Option (CStr × CStr × CStr × CStr) :=
  match splitAtComma operands with
  | none => none
  | some (left, right) =>
      let preSpace := (left.reverse.takeWhile isSpC).reverse
      let postSpace := right.takeWhile isSpC
      some (strip left, strip right, preSpace, postSpace)

inductive Syn where
  | intel
  | att
deriving DecidableEq, Repr

/-- `asmopt_is_register`: no register table; purely shape-based. -/
def isRegister (operand : CStr) (syn : Syn) : Bool :=
  match operand with
  | [] => false
  | _ =>
      let op := operand.dropWhile isSpC
      let body :=
        match syn with
        | .att => (match op with
                   | '%' :: rest => some rest
                   | _ => none)
        | .intel => some op
      match body with
      | none => false
      | some op2 =>
          !(op2.head? = some '$') && !(op2.head? = some '*') &&
          !(op2.contains '[') && !(op2.contains '(') &&
          op2.all (fun c => isAlnumC c || c = '_')

/-- LONG_MAX for 64-bit `long`. -/
def longMax : Int := 2 ^ 63 - 1

/-- LONG_MIN for 64-bit `long`. -/
def longMin : Int := -(2 ^ 63)

/-- Result of the `strtol` model: value, unconsumed rest, and whether any
digits were consumed (`end != nptr`). -/
structure StrtolRes where
  value : Int
  rest : CStr
  consumed : Bool
deriving DecidableEq, Repr

/-- The optional sign at the start of a `strtol` subject. -/
def strtolSign : CStr → Bool × CStr
  | '-' :: r => (true, r)
  | '+' :: r => (false, r)
  | t => (false, t)

/-- The optional `0x`/`0X` prefix in base 16, consumed only when followed
by a hex digit. -/
def strtolHexMark (u : CStr) : CStr :=
  match u with
  | '0' :: x :: r =>
      if (x = 'x' || x = 'X') && (match r with
                                  | d :: _ => isHexDigitC d
                                  | [] => false) then r else u
  | _ => u

/-- The digit class accepted by `strtol` for a base. -/
def strtolIsDigit (base : Nat) : Char → Bool :=
  if base = 16 then isHexDigitC else if base = 8 then isOctDigitC else isDigitC

/-- The digit-consumption step of `strtol`: on no digits the end pointer
is reset to the original subject `s`; the value is clamped to the 64-bit
`long` range. -/
def strtolDigitsPart (base : Nat) (neg : Bool) (v : CStr) (s : CStr) :
    StrtolRes :=
  let isD := strtolIsDigit base
  let digits := v.takeWhile isD
  let rest := v.dropWhile isD
  if digits.isEmpty then ⟨0, s, false⟩
  else
    let mag : Nat := digits.foldl (fun acc c => acc * base + digitValC c) 0
    let value : Int :=
      if neg then max (-(mag : Int)) longMin else min (mag : Int) longMax
    ⟨value, rest, true⟩

/-- `strtol(s, &end, base)` model: skip whitespace, optional sign, optional
`0x` prefix in base 16 (only when followed by a hex digit), then digits. -/
def strtolModel (s : CStr) (base : Nat) : StrtolRes :=
  let t := s.dropWhile isSpC
  let su := strtolSign t
  let v : CStr := if base = 16 then strtolHexMark su.2 else su.2
  strtolDigitsPart base su.1 v s

/-- The success test used throughout the source:
`end != start && *end == '\0'`. -/
def strtolOk (r : StrtolRes) : Bool := r.consumed && r.rest.isEmpty

/-- Strip the syntax-dependent immediate sigil: AT&T requires a leading
`$`; Intel uses the operand as-is. -/
def immAfterSigil (operand : CStr) (syn : Syn) : Option CStr :=
  let op0 := operand.dropWhile isSpC
  match syn with
  | .att => (match op0 with
             | '$' :: r => some r
             | _ => none)
  | .intel => some op0

/-- `asmopt_parse_immediate`: accepts `0x…` hex, `…h` hex, or decimal
(octal in AT&T when a leading `0` is followed by a digit that is not `x`).
Success iff the whole remainder parses. -/
def parseImmediate (operand : CStr) (syn : Syn) : Option Int :=
  match immAfterSigil operand syn with
  | none => none
  | some op1 =>
      let op := op1.dropWhile isSpC
      match op with
      | [] => none
      | c0 :: ctail =>
          let base : Nat :=
            if syn = .att && c0 = '0' &&
               (match ctail with
                | c1 :: _ => c1 ≠ 'x' && isDigitC c1
                | [] => false) then 8 else 10
          if startsWith op (str "0x") then
            let r := strtolModel op 16
            if strtolOk r then some r.value else none
          else if op.getLast? = some 'h' then
            if op.length - 1 ≥ 64 then none
            else
              let r := strtolModel op.dropLast 16
              if strtolOk r then some r.value else none
          else
            let r := strtolModel op base
            if strtolOk r then some r.value else none

/-- `asmopt_is_immediate_zero` (no octal handling; `0x…`, `…h`, or decimal). -/
def isImmediateZero (operand : CStr) (syn : Syn) : Bool :=
  match immAfterSigil operand syn with
  | none => false
  | some op1 =>
      let op := op1.dropWhile isSpC
      match op with
      | [] => false
      | _ =>
          if startsWith op (str "0x") then
            let r := strtolModel op 16
            strtolOk r && r.value = 0
          else if op.getLast? = some 'h' then
            if op.length - 1 ≥ 64 then false
            else
              let r := strtolModel op.dropLast 16
              strtolOk r && r.value = 0
          else
            let r := strtolModel op 10
            strtolOk r && r.value = 0

/-- `asmopt_is_immediate_one`. -/
def isImmediateOne (operand : CStr) (syn : Syn) : Bool :=
  match immAfterSigil operand syn with
  | none => false
  | some op1 =>
      let op := op1.dropWhile isSpC
      match op with
      | [] => false
      | _ =>
          if startsWith op (str "0x") then
            let r := strtolModel op 16
            strtolOk r && r.value = 1
          else if op.getLast? = some 'h' then
            if op.length - 1 ≥ 64 then false
            else
              let r := strtolModel op.dropLast 16
              strtolOk r && r.value = 1
          else
            let r := strtolModel op 10
            strtolOk r && r.value = 1

/-- `asmopt_is_immediate_minus_one`: via the general immediate parser. -/
def isImmediateMinusOne (operand : CStr) (syn : Syn) : Bool :=
  parseImmediate operand syn = some (-1)

/-- `asmopt_is_power_of_two`: `value > 0 && (value & (value-1)) == 0`. -/
def isPowerOfTwo (value : Int) : Bool :=
  value > 0 && (value.toNat &&& (value.toNat - 1)) = 0

/-- `asmopt_log2`: count right shifts until the value reaches one.  The
fuel argument only bounds the recursion structurally; `n` steps suffice. -/
def cLog2Core : Nat → Nat → Nat
  | 0, _ => 0
  | fuel + 1, n => if n ≤ 1 then 0 else 1 + cLog2Core fuel (n / 2)

def cLog2 (value : Int) : Nat := cLog2Core value.toNat value.toNat

/-- The mnemonic families that may carry an AT&T size suffix. -/
def SUFFIX_MNEMONICS : List CStr :=
  [str "mov", str "lea", str "add", str "sub", str "xor", str "and",
   str "or", str "cmp", str "test", str "shl", str "shr", str "sal", str "sar"]

/-- Lowercase a mnemonic, truncating to 31 characters as the C buffer does. -/
def mnemonicLower (m : CStr) : CStr := (m.take 31).map toLowerC

/-- Suffix extraction: for a known family `base` with
`|mnemonic| = |base| + 1 ≥ 4` and final letter in `{b,w,l,q}`, split off
the suffix; otherwise the base is the lowered mnemonic itself. -/
def stripSuffix (ml : CStr) : CStr × Option Char :=
  let canHave := SUFFIX_MNEMONICS.any
    (fun b => ml.length = b.length + 1 && ml.take b.length = b)
  if canHave && ml.length ≥ 4 then
    match ml.getLast? with
    | some c =>
        if c = 'b' || c = 'w' || c = 'l' || c = 'q' then (ml.dropLast, some c)
        else (ml, none)
    | none => (ml, none)
  else (ml, none)

/-- `asmopt_build_suffixed_name`. -/
def buildSuffixedName (base : CStr) (suffix : Option Char) : CStr :=
  match suffix with
  | some c => base ++ [c]
  | none => base

def jumpMnemonics : List CStr :=
  [str "jo", str "jno", str "js", str "jns", str "je", str "jz",
   str "jne", str "jnz", str "jb", str "jnae", str "jc", str "jnb",
   str "jae", str "jnc", str "jbe", str "jna", str "ja", str "jnbe",
   str "jl", str "jnge", str "jge", str "jnl", str "jle", str "jng",
   str "jg", str "jnle", str "jp", str "jpe", str "jnp", str "jpo",
   str "jcxz", str "jecxz", str "jrcxz", str "jmp", str "jmpq",
   str "jmpl", str "jmpw"]

def conditionalJumps : List CStr :=
  [str "jo", str "jno", str "js", str "jns", str "je", str "jz",
   str "jne", str "jnz", str "jb", str "jnae", str "jc", str "jnb",
   str "jae", str "jnc", str "jbe", str "jna", str "ja", str "jnbe",
   str "jl", str "jnge", str "jge", str "jnl", str "jle", str "jng",
   str "jg", str "jnle", str "jp", str "jpe", str "jnp", str "jpo",
   str "jcxz", str "jecxz", str "jrcxz"]

def isJumpMnemonic (m : CStr) : Bool := jumpMnemonics.any (caseEq m)

def isConditionalJump (m : CStr) : Bool := conditionalJumps.any (caseEq m)

def isUnconditionalJump (m : CStr) : Bool :=
  isJumpMnemonic m && !isConditionalJump m

/-- `asmopt_invert_conditional_jump`: the source's inversion table, first
match wins. -/
def invertCondJump (m : CStr) : Option CStr :=
  let pairs : List (CStr × CStr) :=
    [(str "je", str "jne"), (str "jz", str "jnz"), (str "jne", str "je"),
     (str "jnz", str "jz"), (str "jb", str "jnb"), (str "jnae", str "jae"),
     (str "jc", str "jnc"), (str "jnb", str "jb"), (str "jae", str "jnae"),
     (str "jnc", str "jc"), (str "jbe", str "ja"), (str "jna", str "ja"),
     (str "ja", str "jbe"), (str "jnbe", str "jbe"), (str "jl", str "jge"),
     (str "jnge", str "jge"), (str "jge", str "jl"), (str "jnl", str "jl"),
     (str "jle", str "jg"), (str "jng", str "jg"), (str "jg", str "jle"),
     (str "jnle", str "jle"), (str "jo", str "jno"), (str "jno", str "jo"),
     (str "js", str "jns"), (str "jns", str "js"), (str "jp", str "jnp"),
     (str "jpe", str "jpo"), (str "jnp", str "jp"), (str "jpo", str "jpe")]
  (pairs.find? (fun p => caseEq m p.1)).map (·.2)

/-- `asmopt_is_return`: length at least three with case-insensitive prefix
`ret`. -/
def isReturn (m : CStr) : Bool := m.length ≥ 3 && casePrefixLen m (str "ret")

/-- `asmopt_is_label_operand`: optional leading `*`s, then
`[A-Za-z_.][A-Za-z0-9_.]*`. -/
def isLabelOperand (operand : CStr) : Bool :=
  let op := operand.dropWhile (· = '*')
  match op with
  | [] => false
  | c :: _ =>
      (isAlphaC c || c = '_' || c = '.') &&
      op.all (fun x => isAlnumC x || x = '_' || x = '.')

/-- `asmopt_is_target_zen`: AMD optimizations enabled and the target CPU
starts case-insensitively with `zen` followed by end-of-string or a digit. -/
def isTargetZen (amd : Bool) (cpu : CStr) : Bool :=
  amd && cpu.length ≥ 3 && casePrefixLen cpu (str "zen") &&
  (match cpu.drop 3 with
   | [] => true
   | c :: _ => isDigitC c)

/-- `asmopt_split_lines`: cut on `\n`; the loop also emits the segment
terminated by the final NUL, so a trailing newline yields a final empty
line. -/
def splitLinesAux : CStr → CStr → List CStr
  | [], cur => [cur.reverse]
  | c :: cs, cur =>
      if c = '\n' then cur.reverse :: splitLinesAux cs []
      else splitLinesAux cs (c :: cur)

def splitLines (text : CStr) : List CStr × Bool :=
  (splitLinesAux text [], text.getLast? = some '\n')

/-- `asmopt_join_lines`: join with `\n` and append a final `\n` iff
`trailing_newline`. -/
def joinLines (lines : List CStr) (trailing : Bool) : CStr :=
  match lines with
  | [] => if trailing then ['\n'] else []
  | _ => List.intercalate ['\n'] lines ++ (if trailing then ['\n'] else [])

/-- `asmopt_detect_syntax`: an explicit format wins (any string other than
`"att"` behaves as Intel everywhere, since the only use is
`strcmp(syntax, "att") == 0`); otherwise any `%` in the input selects AT&T. -/
def detectSyn (format : Option CStr) (lines : List CStr) : Syn :=
  match format with
  | some f => if f = str "att" then .att else .intel
  | none => if lines.any (·.contains '%') then .att else .intel

/-- Destination operand by syntax: AT&T takes the second operand as
destination, Intel the first. -/
def synDest (syn : Syn) (op1 op2 : CStr) : CStr :=
  match syn with
  | .att => op2
  | .intel => op1

/-- Source operand by syntax. -/
def synSrc (syn : Syn) (op1 op2 : CStr) : CStr :=
  match syn with
  | .att => op1
  | .intel => op2

/-- `asmopt_is_mov_no_comment`: the line must carry no comment, parse as an
instruction whose base mnemonic is `mov` with two operands, both registers;
returns (dest, src) by syntax. -/
def isMovNoComment (line : CStr) (syn : Syn) : Option (CStr × CStr) :=
  let sc := splitComment line
  if !isBlank sc.2 then none
  else if isDirectiveOrLabel sc.1 then none
  else
    match parseInstruction sc.1 with
    | none => none
    | some (_, mnemonic, _, operands) =>
        let base := (stripSuffix (mnemonicLower mnemonic)).1
        match parseOperands operands with
        | none => none
        | some (op1, op2, _, _) =>
            if base = str "mov" then
              let d := synDest syn op1 op2
              let s := synSrc syn op1 op2
              if isRegister d syn && isRegister s syn then some (d, s)
              else none
            else none

/-- Split a list at the first occurrence of `ch` (mirrors `strchr`). -/
def splitAtChar (ch : Char) : CStr → Option (CStr × CStr)
  | [] => none
  | c :: cs =>
      if c = ch then some ([], cs)
      else match splitAtChar ch cs with
        | none => none
        | some (l, r) => some (c :: l, r)

/-- `asmopt_is_zero_displacement`: empty (after trim) or an immediate that
parses to zero (with a NULL syntax, i.e. the Intel path). -/
def isZeroDisplacement (value : CStr) : Bool :=
  let trimmed := strip value
  if trimmed.isEmpty then true
  else parseImmediate trimmed .intel = some 0

/-- `asmopt_is_identity_lea`: the source memory operand is a
zero-displacement reference whose sole base equals the destination. -/
def isIdentityLea (srcOp dest : CStr) (syn : Syn) : Bool :=
  if !isRegister dest syn then false
  else
    let trimmed := strip srcOp
    match syn with
    | .att =>
        (match splitAtChar '(' trimmed with
         | none => false
         | some (disp, afterOpen) =>
             match splitAtChar ')' afterOpen with
             | none => false
             | some (base, tail) =>
                 (tail.dropWhile isSpC).isEmpty &&
                 isZeroDisplacement disp && caseEq (strip base) dest)
    | .intel =>
        match trimmed with
        | '[' :: rest =>
            (match trimmed.getLast? with
             | some ']' => trimmed.length ≥ 2 && caseEq (strip rest.dropLast) dest
             | _ => false)
        | _ => false

/-- `asmopt_is_zero_guarded`: line `i-1` is a `jz`/`je` instruction and
line `i-2` is `test s, s` or `cmp s, 0` on the same register. -/
def isZeroGuarded (lines : List CStr) (lineNo : Nat) (src : CStr)
    (syn : Syn) : Bool :=
  if lineNo < 3 then false
  else
    let jumpIndex := lineNo - 2
    let testIndex := lineNo - 3
    if jumpIndex ≥ lines.length || testIndex ≥ lines.length then false
    else
      let jumpLine := lines.getD jumpIndex []
      let jsc := splitComment jumpLine
      if isDirectiveOrLabel jsc.1 then false
      else
        let isJump :=
          match parseInstruction jsc.1 with
          | none => false
          | some (_, jm, _, _) => caseEq jm (str "jz") || caseEq jm (str "je")
        if !isJump then false
        else
          let testLine := lines.getD testIndex []
          let tsc := splitComment testLine
          if isDirectiveOrLabel tsc.1 then false
          else
            match parseInstruction tsc.1 with
            | none => false
            | some (_, tm, _, tops) =>
                match parseOperands tops with
                | none => false
                | some (op1, op2, _, _) =>
                    if caseEq tm (str "test") then
                      isRegister op1 syn && isRegister op2 syn &&
                      caseEq op1 src && caseEq op2 src
                    else if caseEq tm (str "cmp") then
                      let d := synDest syn op1 op2
                      let cs := synSrc syn op1 op2
                      isRegister d syn && caseEq d src && isImmediateZero cs syn
                    else false

/-- Decimal rendering of a natural number (for `snprintf("%d", n)` with a
non-negative shift amount).  The fuel argument only bounds the recursion
structurally; `n + 1` digits always suffice. -/
def natDecimalCore : Nat → Nat → CStr → CStr
  | 0, _, acc => acc
  | fuel + 1, n, acc =>
      let digit := Char.ofNat ('0'.toNat + n % 10)
      if n < 10 then digit :: acc
      else natDecimalCore fuel (n / 10) (digit :: acc)

def natDecimal (n : Nat) : CStr := natDecimalCore (n + 1) n []

/-- `asmopt_record_optimization`: a recorded optimization event; a missing
optimized text is stored as the literal `(removed)`. -/
structure OptEvent where
  lineNo : Nat
  pattern : CStr
  original : CStr
  optimized : CStr
deriving DecidableEq, Repr

def mkEvent (lineNo : Nat) (pattern original : CStr) (optimized : Option CStr) :
    OptEvent :=
  ⟨lineNo, pattern, original, optimized.getD (str "(removed)")⟩

/-- The observable effect of one `asmopt_peephole_line` call: lines stored,
events recorded, the `replaced`/`removed` out-flags, and `skip_lines`. -/
structure PRes where
  stored : List CStr
  events : List OptEvent
  replaced : Bool
  removed : Bool
  skip : Nat
deriving DecidableEq, Repr

/-- Store the line unchanged (no pattern applied). -/
def presStore (line : CStr) : PRes := ⟨[line], [], false, false, 0⟩

/-- `asmopt_handle_identity_removal`: record the event, emit the
indent+comment line when the comment is non-blank, set `removed`. -/
def presIdentityRemoval (lineNo : Nat) (patName line comment indent : CStr) : PRes :=
  ⟨if isBlank comment then [] else [indent ++ trimComment comment],
   [mkEvent lineNo patName line none], false, true, 0⟩

/-- A single-line replacement: record the event, store the new line. -/
def presReplace (lineNo : Nat) (patName line newline : CStr) : PRes :=
  ⟨[newline], [mkEvent lineNo patName line (some newline)], true, false, 0⟩

/-- Pattern 22 `hot_loop_align` (alignment constant modelled from the spec:
`ASMOPT_HOT_LOOP_ALIGNMENT` is defined outside the provided sources; spec
and tests fix the emitted directive as `.align 64`). -/
def alignLine : CStr := str "    .align 64"

def alignReport : CStr := str "    .align 64" ++ ['\n'] ++ str ".hot_loop:"

def presHotAlign (lineNo : Nat) (line : CStr) : PRes :=
  ⟨[alignLine, line],
   [mkEvent lineNo (str "hot_loop_align") line (some alignReport)],
   false, false, 0⟩

/-- Pattern 26 `dead_store_move`: drop the current line, keep the next. -/
def presDeadStore (lineNo : Nat) (line nextLine : CStr) : PRes :=
  ⟨[nextLine],
   [mkEvent lineNo (str "dead_store_move") (line ++ ['\n'] ++ nextLine)
     (some nextLine)],
   true, true, 1⟩

/-- Pattern 27 `schedule_swap_move`: emit the next line, then the current. -/
def presSwap (lineNo : Nat) (line nextLine : CStr) : PRes :=
  ⟨[nextLine, line],
   [mkEvent lineNo (str "schedule_swap_move") line (some nextLine)],
   true, false, 1⟩

/-- Pattern 12 `redundant_move_pair`: keep the first line, drop the second
(with an indent+comment line when the second carried a comment); two events
are recorded. -/
def presMovPair (lineNo : Nat) (line nextLine nextIndent nextComment : CStr) :
    PRes :=
  ⟨[line] ++ (if isBlank nextComment then []
              else [nextIndent ++ trimComment nextComment]),
   [mkEvent lineNo (str "redundant_move_pair") (line ++ ['\n'] ++ nextLine)
     (some line),
    mkEvent (lineNo + 1) (str "redundant_move_pair") nextLine none],
   true, true, 1⟩

/-- Pattern 28 `load_modify_store`: three lines collapse to one `add`,
with indent+comment lines for the middle and last comments. -/
def presLms (lineNo : Nat) (line addLine storeLine newline addIndent
    addComment storeIndent storeComment : CStr) : PRes :=
  ⟨[newline] ++
     (if isBlank addComment then [] else [addIndent ++ trimComment addComment]) ++
     (if isBlank storeComment then []
      else [storeIndent ++ trimComment storeComment]),
   [mkEvent lineNo (str "load_modify_store")
     (line ++ ['\n'] ++ addLine ++ ['\n'] ++ storeLine) (some newline)],
   true, true, 2⟩

/-- Pattern 25 `invert_conditional_jump`: one inverted jump replaces the
pair; the dropped `jmp` line's comment is preserved on its own line. -/
def presInvert (lineNo : Nat) (line nextLine newline nextIndent
    nextComment : CStr) : PRes :=
  ⟨[newline] ++ (if isBlank nextComment then []
                 else [nextIndent ++ trimComment nextComment]),
   [mkEvent lineNo (str "invert_conditional_jump")
     (line ++ ['\n'] ++ nextLine) (some newline)],
   true, true, 1⟩

/-- Append `" " ++ trimmed_comment` when the trimmed comment is non-blank. -/
def withComment (codeText comment : CStr) : CStr :=
  let tc := trimComment comment
  if isBlank tc then codeText else codeText ++ [' '] ++ tc

/-- A two-operand replacement line, preserving indent, spacing and the
whitespace around the comma. -/
def twoOpLine (indent name spacing a preSpace postSpace b comment : CStr) :
    CStr :=
  withComment (indent ++ name ++ spacing ++ a ++ preSpace ++ [','] ++
    postSpace ++ b) comment

/-- A one-operand replacement line (`inc`/`dec`). -/
def oneOpLine (indent name spacing a comment : CStr) : CStr :=
  withComment (indent ++ name ++ spacing ++ a) comment

/-- The tokenized view of the current line shared by all patterns. -/
structure LineCtx where
  lineNo : Nat
  line : CStr
  code : CStr
  comment : CStr
  indent : CStr
  mnemonic : CStr
  spacing : CStr
  operands : CStr
  ml : CStr
  base : CStr
  suffix : Option Char
  hasTwoOps : Bool
  op1 : CStr
  op2 : CStr
  preSpace : CStr
  postSpace : CStr
  dest : CStr
  src : CStr
  destReg : Bool
  srcReg : Bool

/-- Patterns 1 and 2 (`redundant_mov`, `mov_zero_to_xor`). -/
def tryMovSingle (L : LineCtx) (syn : Syn) : Option PRes :=
  if (L.base = str "mov" || L.ml = str "mov") && L.hasTwoOps then
    if L.destReg && L.srcReg && caseEq L.dest L.src then
      some (presIdentityRemoval L.lineNo (str "redundant_mov") L.line
        L.comment L.indent)
    else if L.destReg && isImmediateZero L.src syn then
      some (presReplace L.lineNo (str "mov_zero_to_xor") L.line
        (twoOpLine L.indent (buildSuffixedName (str "xor") L.suffix) L.spacing
          L.dest L.preSpace L.postSpace L.dest L.comment))
    else none
  else none

/-- Pattern 24 (`redundant_lea`). -/
def tryLea (L : LineCtx) (syn : Syn) : Option PRes :=
  if L.base = str "lea" && L.hasTwoOps &&
     isIdentityLea L.src L.dest syn then
    some (presIdentityRemoval L.lineNo (str "redundant_lea") L.line
      L.comment L.indent)
  else none

/-- Pattern 26 (`dead_store_move`): the next source line must be a
comment-free register-to-register mov with the same destination and a
different source. -/
def tryDeadStore (L : LineCtx) (syn : Syn) (origLines : List CStr) :
    Option PRes :=
  if L.base = str "mov" && L.hasTwoOps && L.destReg && L.srcReg then
    if h : L.lineNo < origLines.length then
      let nextLine := origLines.get ⟨L.lineNo, h⟩
      match isMovNoComment nextLine syn with
      | some (nd, ns) =>
          if caseEq L.dest nd && !caseEq L.src ns then
            some (presDeadStore L.lineNo L.line nextLine)
          else none
      | none => none
    else none
  else none

/-- Pattern 27 (`schedule_swap_move`): the next source line must be a
comment-free register-to-register mov whose operands are both different
from both operands of the current mov. -/
def trySwap (L : LineCtx) (syn : Syn) (origLines : List CStr) : Option PRes :=
  if L.base = str "mov" && L.hasTwoOps && L.destReg && L.srcReg then
    if h : L.lineNo < origLines.length then
      let nextLine := origLines.get ⟨L.lineNo, h⟩
      match isMovNoComment nextLine syn with
      | some (nd, ns) =>
          if !caseEq L.dest nd && !caseEq L.dest ns &&
             !caseEq L.src nd && !caseEq L.src ns then
            some (presSwap L.lineNo L.line nextLine)
          else none
      | none => none
    else none
  else none

/-- Pattern 28 (`load_modify_store`):
`mov r, M` / `add r, imm` / `mov M, r` collapse to `add M, imm`. -/
def tryLms (L : LineCtx) (syn : Syn) (origLines : List CStr) : Option PRes :=
  if L.base = str "mov" && L.hasTwoOps && L.destReg && !L.srcReg then
    if h : L.lineNo + 1 < origLines.length then
      let addLine := origLines.get ⟨L.lineNo, by omega⟩
      let storeLine := origLines.get ⟨L.lineNo + 1, h⟩
      let asc := splitComment addLine
      if isDirectiveOrLabel asc.1 then none
      else
        match parseInstruction asc.1 with
        | none => none
        | some (addIndent, addMnem, _, addOperands) =>
            let addStripped := stripSuffix (mnemonicLower addMnem)
            match parseOperands addOperands with
            | none => none
            | some (a1, a2, addPre, addPost) =>
                if addStripped.1 = str "add" then
                  let addDest := synDest syn a1 a2
                  let addSrc := synSrc syn a1 a2
                  if isRegister addDest syn && caseEq addDest L.dest &&
                     (parseImmediate addSrc syn).isSome then
                    let ssc := splitComment storeLine
                    if isDirectiveOrLabel ssc.1 then none
                    else
                      match parseInstruction ssc.1 with
                      | none => none
                      | some (storeIndent, storeMnem, _, storeOperands) =>
                          let storeBase := (stripSuffix (mnemonicLower storeMnem)).1
                          match parseOperands storeOperands with
                          | none => none
                          | some (s1, s2, _, _) =>
                              if storeBase = str "mov" then
                                let storeDest := synDest syn s1 s2
                                let storeSrc := synSrc syn s1 s2
                                if isRegister storeSrc syn &&
                                   caseEq storeSrc L.dest &&
                                   caseEq storeDest L.src then
                                  let newline := twoOpLine L.indent
                                    (buildSuffixedName (str "add") addStripped.2)
                                    L.spacing storeDest addPre addPost addSrc
                                    L.comment
                                  some (presLms L.lineNo L.line addLine
                                    storeLine newline addIndent asc.2
                                    storeIndent ssc.2)
                                else none
                              else none
                  else none
                else none
    else none
  else none

/-- Pattern 12 (`redundant_move_pair`): `mov a, b` then `mov b, a`. -/
def tryMovPair (L : LineCtx) (syn : Syn) (origLines : List CStr) :
    Option PRes :=
  if L.base = str "mov" && L.hasTwoOps && L.destReg && L.srcReg then
    if h : L.lineNo < origLines.length then
      let nextLine := origLines.get ⟨L.lineNo, h⟩
      let nsc := splitComment nextLine
      if isDirectiveOrLabel nsc.1 then none
      else
        match parseInstruction nsc.1 with
        | none => none
        | some (nextIndent, nextMnem, _, nextOperands) =>
            let nextBase := (stripSuffix (mnemonicLower nextMnem)).1
            match parseOperands nextOperands with
            | none => none
            | some (n1, n2, _, _) =>
                if nextBase = str "mov" then
                  let nd := synDest syn n1 n2
                  let ns := synSrc syn n1 n2
                  if isRegister nd syn && isRegister ns syn &&
                     caseEq L.dest ns && caseEq L.src nd then
                    some (presMovPair L.lineNo L.line nextLine nextIndent nsc.2)
                  else none
                else none
    else none
  else none

/-- A self-operand replacement (patterns 13, 16, 19, 20 share this shape). -/
def trySelfPattern (L : LineCtx) (baseName patName newName : CStr) :
    Option PRes :=
  if L.base = baseName && L.hasTwoOps && L.destReg && L.srcReg &&
     caseEq L.dest L.src then
    some (presReplace L.lineNo patName L.line
      (twoOpLine L.indent (buildSuffixedName newName L.suffix) L.spacing
        L.dest L.preSpace L.postSpace L.dest L.comment))
  else none

/-- Pattern 13: `sub d, d` → `xor d, d`. -/
def trySubSelf (L : LineCtx) : Option PRes :=
  trySelfPattern L (str "sub") (str "sub_self_to_xor") (str "xor")

/-- Pattern 14: `and d, 0` → `xor d, d`. -/
def tryAndZero (L : LineCtx) (syn : Syn) : Option PRes :=
  if L.base = str "and" && L.hasTwoOps && L.destReg &&
     isImmediateZero L.src syn then
    some (presReplace L.lineNo (str "and_zero_to_xor") L.line
      (twoOpLine L.indent (buildSuffixedName (str "xor") L.suffix) L.spacing
        L.dest L.preSpace L.postSpace L.dest L.comment))
  else none

/-- Pattern 15: `cmp d, 0` → `test d, d`. -/
def tryCmpZero (L : LineCtx) (syn : Syn) : Option PRes :=
  if L.base = str "cmp" && L.hasTwoOps && L.destReg &&
     isImmediateZero L.src syn then
    some (presReplace L.lineNo (str "cmp_zero_to_test") L.line
      (twoOpLine L.indent (buildSuffixedName (str "test") L.suffix) L.spacing
        L.dest L.preSpace L.postSpace L.dest L.comment))
  else none

/-- Pattern 16: `or d, d` → `test d, d`. -/
def tryOrSelf (L : LineCtx) : Option PRes :=
  trySelfPattern L (str "or") (str "or_self_to_test") (str "test")

/-- Pattern 17: `add d, -1` → `dec d`. -/
def tryAddMinusOne (L : LineCtx) (syn : Syn) : Option PRes :=
  if L.base = str "add" && L.hasTwoOps && L.destReg &&
     isImmediateMinusOne L.src syn then
    some (presReplace L.lineNo (str "add_minus_one_to_dec") L.line
      (oneOpLine L.indent (buildSuffixedName (str "dec") L.suffix) L.spacing
        L.dest L.comment))
  else none

/-- Pattern 18: `sub d, -1` → `inc d`. -/
def trySubMinusOne (L : LineCtx) (syn : Syn) : Option PRes :=
  if L.base = str "sub" && L.hasTwoOps && L.destReg &&
     isImmediateMinusOne L.src syn then
    some (presReplace L.lineNo (str "sub_minus_one_to_inc") L.line
      (oneOpLine L.indent (buildSuffixedName (str "inc") L.suffix) L.spacing
        L.dest L.comment))
  else none

/-- Pattern 19: `and d, d` → `test d, d`. -/
def tryAndSelf (L : LineCtx) : Option PRes :=
  trySelfPattern L (str "and") (str "and_self_to_test") (str "test")

/-- Pattern 20: `cmp d, d` → `test d, d`. -/
def tryCmpSelf (L : LineCtx) : Option PRes :=
  trySelfPattern L (str "cmp") (str "cmp_self_to_test") (str "test")

/-- Pattern 21 (`fallthrough_jump`): an unconditional `jmp L` whose next
line is the label line `L:`. -/
def tryFallthrough (L : LineCtx) (origLines : List CStr) : Option PRes :=
  if !L.hasTwoOps && !L.operands.isEmpty && isUnconditionalJump L.base &&
     !L.operands.contains ',' then
    let trimmed := strip L.operands
    if trimmed.isEmpty then none
    else if h : L.lineNo < origLines.length then
      let nextLine := origLines.get ⟨L.lineNo, h⟩
      let nsc := splitComment nextLine
      if isBlank nsc.1 then none
      else
        let nextTrimmed := strip nsc.1
        match nextTrimmed.getLast? with
        | some lc =>
            if lc = ':' && nextTrimmed.dropLast = trimmed then
              some (presIdentityRemoval L.lineNo (str "fallthrough_jump")
                L.line L.comment L.indent)
            else none
        | none => none
    else none
  else none

/-- Pattern 25 (`invert_conditional_jump`): `jcc L1` / `jmp L2` / `L1:`
becomes `j!cc L2` with the label line retained. -/
def tryInvert (L : LineCtx) (origLines : List CStr) : Option PRes :=
  if !L.hasTwoOps && !L.operands.isEmpty && isConditionalJump L.base &&
     !L.operands.contains ',' then
    match invertCondJump L.base with
    | none => none
    | some inverted =>
        let condTarget := strip L.operands
        if !isLabelOperand condTarget then none
        else if h : L.lineNo + 1 < origLines.length then
          let nextLine := origLines.get ⟨L.lineNo, by omega⟩
          let labelLine := origLines.get ⟨L.lineNo + 1, h⟩
          let nsc := splitComment nextLine
          if isDirectiveOrLabel nsc.1 then none
          else
            match parseInstruction nsc.1 with
            | none => none
            | some (nextIndent, nextMnem, _, nextOperands) =>
                if isUnconditionalJump (mnemonicLower nextMnem) &&
                   !nextOperands.contains ',' then
                  let jmpTarget := strip nextOperands
                  if !isLabelOperand jmpTarget then none
                  else
                    let lsc := splitComment labelLine
                    let labelTrimmed := strip lsc.1
                    match labelTrimmed.getLast? with
                    | some lc =>
                        if lc = ':' && labelTrimmed.dropLast = condTarget then
                          some (presInvert L.lineNo L.line nextLine
                            (withComment (L.indent ++ inverted ++ L.spacing ++
                              jmpTarget) L.comment)
                            nextIndent nsc.2)
                        else none
                    | none => none
                else none
        else none
  else none

/-- Pattern 23 (`bsf_to_tzcnt`): Zen target with a zero-guarded source. -/
def tryBsf (L : LineCtx) (syn : Syn) (amd : Bool) (cpu : CStr)
    (origLines : List CStr) : Option PRes :=
  if L.base = str "bsf" && L.hasTwoOps && L.destReg && L.srcReg &&
     isTargetZen amd cpu && isZeroGuarded origLines L.lineNo L.src syn then
    some (presReplace L.lineNo (str "bsf_to_tzcnt") L.line
      (twoOpLine L.indent (buildSuffixedName (str "tzcnt") L.suffix) L.spacing
        L.dest L.preSpace L.postSpace L.src L.comment))
  else none

/-- Patterns 3 and 4 (`mul_by_one`, `mul_power_of_2_to_shift`). -/
def tryImul (L : LineCtx) (syn : Syn) : Option PRes :=
  if L.base = str "imul" && L.hasTwoOps then
    if L.destReg && isImmediateOne L.src syn then
      some (presIdentityRemoval L.lineNo (str "mul_by_one") L.line
        L.comment L.indent)
    else
      match parseImmediate L.src syn with
      | some v =>
          if L.destReg && isPowerOfTwo v then
            let shiftStr :=
              (if syn = .att then ['$'] else []) ++ natDecimal (cLog2 v)
            some (presReplace L.lineNo (str "mul_power_of_2_to_shift") L.line
              (twoOpLine L.indent (buildSuffixedName (str "shl") L.suffix)
                L.spacing L.dest L.preSpace L.postSpace shiftStr L.comment))
          else none
      | none => none
  else none

/-- Pattern 5 (`add_sub_zero`). -/
def tryAddSubZero (L : LineCtx) (syn : Syn) : Option PRes :=
  if (L.base = str "add" || L.base = str "sub") && L.hasTwoOps &&
     L.destReg && isImmediateZero L.src syn then
    some (presIdentityRemoval L.lineNo (str "add_sub_zero") L.line
      L.comment L.indent)
  else none

/-- Pattern 6 (`shift_by_zero`). -/
def tryShiftZero (L : LineCtx) (syn : Syn) : Option PRes :=
  if (L.base = str "shl" || L.base = str "shr" || L.base = str "sal" ||
      L.base = str "sar") && L.hasTwoOps && L.destReg &&
     isImmediateZero L.src syn then
    some (presIdentityRemoval L.lineNo (str "shift_by_zero") L.line
      L.comment L.indent)
  else none

/-- Pattern 7 (`or_zero`). -/
def tryOrZero (L : LineCtx) (syn : Syn) : Option PRes :=
  if L.base = str "or" && L.hasTwoOps && L.destReg &&
     isImmediateZero L.src syn then
    some (presIdentityRemoval L.lineNo (str "or_zero") L.line
      L.comment L.indent)
  else none

/-- Pattern 8 (`xor_zero`), immediate zero only. -/
def tryXorZero (L : LineCtx) (syn : Syn) : Option PRes :=
  if L.base = str "xor" && L.hasTwoOps && L.destReg &&
     isImmediateZero L.src syn then
    some (presIdentityRemoval L.lineNo (str "xor_zero") L.line
      L.comment L.indent)
  else none

/-- Pattern 9 (`and_minus_one`). -/
def tryAndMinusOne (L : LineCtx) (syn : Syn) : Option PRes :=
  if L.base = str "and" && L.hasTwoOps && L.destReg &&
     isImmediateMinusOne L.src syn then
    some (presIdentityRemoval L.lineNo (str "and_minus_one") L.line
      L.comment L.indent)
  else none

/-- Pattern 10 (`add_one_to_inc`). -/
def tryAddOne (L : LineCtx) (syn : Syn) : Option PRes :=
  if L.base = str "add" && L.hasTwoOps && L.destReg &&
     isImmediateOne L.src syn then
    some (presReplace L.lineNo (str "add_one_to_inc") L.line
      (oneOpLine L.indent (buildSuffixedName (str "inc") L.suffix) L.spacing
        L.dest L.comment))
  else none

/-- Pattern 11 (`sub_one_to_dec`). -/
def trySubOne (L : LineCtx) (syn : Syn) : Option PRes :=
  if L.base = str "sub" && L.hasTwoOps && L.destReg &&
     isImmediateOne L.src syn then
    some (presReplace L.lineNo (str "sub_one_to_dec") L.line
      (oneOpLine L.indent (buildSuffixedName (str "dec") L.suffix) L.spacing
        L.dest L.comment))
  else none

/-- First applicable pattern wins (the source's `goto cleanup` chain). -/
def firstSome : List (Option PRes) → Option PRes
  | [] => none
  | o :: rest =>
      match o with
      | some r => some r
      | none => firstSome rest

/-- Build the shared tokenized view of an instruction line. -/
def mkLineCtx (lineNo : Nat) (line code comment indent mnemonic spacing
    operands : CStr) (syn : Syn) : LineCtx :=
  let ml := mnemonicLower mnemonic
  let ss := stripSuffix ml
  match parseOperands operands with
  | some (o1, o2, pre, post) =>
      let d := synDest syn o1 o2
      let s := synSrc syn o1 o2
      ⟨lineNo, line, code, comment, indent, mnemonic, spacing, operands,
       ml, ss.1, ss.2, true, o1, o2, pre, post, d, s,
       isRegister d syn, isRegister s syn⟩
  | none =>
      ⟨lineNo, line, code, comment, indent, mnemonic, spacing, operands,
       ml, ss.1, ss.2, false, [], [], [], [], [], [], false, false⟩

/-- `asmopt_peephole_line`: split the comment; pass directive/label lines
through (inserting the alignment for `.hot_loop:` when enabled); tokenize;
try the patterns in source order; otherwise store the line unchanged. -/
def peepholeLine (insertHotAlign amd : Bool) (cpu : CStr)
    (origLines : List CStr) (lineNo : Nat) (line : CStr) (syn : Syn) : PRes :=
  let sc := splitComment line
  if isDirectiveOrLabel sc.1 then
    if insertHotAlign && strip sc.1 = str ".hot_loop:" then
      presHotAlign lineNo line
    else presStore line
  else
    match parseInstruction sc.1 with
    | none => presStore line
    | some (indent, mnemonic, spacing, operands) =>
        let L := mkLineCtx lineNo line sc.1 sc.2 indent mnemonic spacing
          operands syn
        (firstSome
          [tryMovSingle L syn, tryLea L syn, tryDeadStore L syn origLines,
           trySwap L syn origLines, tryLms L syn origLines,
           tryMovPair L syn origLines, trySubSelf L, tryAndZero L syn,
           tryCmpZero L syn, tryOrSelf L, tryAddMinusOne L syn,
           trySubMinusOne L syn, tryAndSelf L, tryCmpSelf L,
           tryFallthrough L origLines, tryInvert L origLines,
           tryBsf L syn amd cpu origLines, tryImul L syn,
           tryAddSubZero L syn, tryShiftZero L syn, tryOrZero L syn,
           tryXorZero L syn, tryAndMinusOne L syn, tryAddOne L syn,
           trySubOne L syn]).getD (presStore line)

/-- `asmopt_stats`. -/
structure Stats where
  originalLines : Nat
  optimizedLines : Nat
  replacements : Nat
  removals : Nat
deriving DecidableEq, Repr

/-- The optimizer context (`struct asmopt_context`), restricted to the
fields the engine reads.  `format` keeps the raw string set by
`asmopt_set_format`. -/
structure Ctx where
  targetCpu : CStr
  format : Option CStr
  optimizationLevel : Int
  amdOptimizations : Bool
  noOptimize : Bool
  preserveAll : Bool
  enabledOpts : List CStr
  disabledOpts : List CStr
  options : List (CStr × CStr)
  hasInput : Bool
  originalLines : List CStr
  optimizedLines : List CStr
  trailingNewline : Bool
  events : List OptEvent
  stats : Stats
  insertHotAlign : Bool
deriving Repr

/-- `asmopt_create`: defaults (level 2, AMD on, `peephole` enabled,
`target_cpu = "generic"`). -/
def createCtx : Ctx :=
  ⟨str "generic", none, 2, true, false, false, [str "peephole"], [], [],
   false, [], [], false, [], ⟨0, 0, 0, 0⟩, false⟩

def setOptimizationLevel (ctx : Ctx) (level : Int) : Ctx :=
  { ctx with optimizationLevel := max 0 (min 4 level) }

def setTargetCpu (ctx : Ctx) (cpu : CStr) : Ctx := { ctx with targetCpu := cpu }

def setFormat (ctx : Ctx) (format : Option CStr) : Ctx :=
  { ctx with format := format }

def setNoOptimize (ctx : Ctx) (enabled : Bool) : Ctx :=
  { ctx with noOptimize := enabled }

def setAmdOptimizations (ctx : Ctx) (enabled : Bool) : Ctx :=
  { ctx with amdOptimizations := enabled }

def setOption (ctx : Ctx) (key value : CStr) : Ctx :=
  { ctx with options := ctx.options ++ [(key, value)] }

def enableOptimization (ctx : Ctx) (name : CStr) : Ctx :=
  if name = str "all" then
    { ctx with enabledOpts := ctx.enabledOpts ++ [str "peephole"] }
  else { ctx with enabledOpts := ctx.enabledOpts ++ [name] }

def disableOptimization (ctx : Ctx) (name : CStr) : Ctx :=
  if name = str "all" then
    { ctx with enabledOpts := [], disabledOpts := ctx.disabledOpts ++ [str "all"] }
  else { ctx with disabledOpts := ctx.disabledOpts ++ [name] }

/-- `asmopt_option_enabled`: first matching key wins; enabled iff its
value is exactly `"1"`. -/
def optionEnabled (ctx : Ctx) (key : CStr) : Bool :=
  match ctx.options.find? (fun p => p.1 = key) with
  | some p => p.2 = str "1"
  | none => false

def hasOpt (list : List CStr) (value : CStr) : Bool := list.any (· = value)

def isDisabled (ctx : Ctx) (name : CStr) : Bool :=
  hasOpt ctx.disabledOpts (str "all") || hasOpt ctx.disabledOpts name

/-- `asmopt_should_optimize`. -/
def shouldOptimize (ctx : Ctx) : Bool :=
  !ctx.noOptimize && ctx.optimizationLevel ≠ 0 &&
  !isDisabled ctx (str "peephole") &&
  hasOpt ctx.enabledOpts (str "peephole")

/-- `asmopt_parse_string`: reset lines, events and stats, then split. -/
def parseString (ctx : Ctx) (text : CStr) : Ctx :=
  let sl := splitLines text
  { ctx with
      hasInput := true
      originalLines := sl.1
      optimizedLines := []
      trailingNewline := sl.2
      events := []
      stats := ⟨0, 0, 0, 0⟩ }

/-- Accumulator of the driver loop in `asmopt_optimize`. -/
structure OptAccum where
  stored : List CStr
  events : List OptEvent
  repl : Nat
  rem : Nat
deriving Repr

/-- The scan loop of `asmopt_optimize`: process line `i`, attribute the
flags to the stats, then advance past `skip_lines` extra lines.  `fuel`
bounds the recursion; `origLines.length` steps always suffice since the
index strictly increases. -/
def optLoop (insertHotAlign amd : Bool) (cpu : CStr) (origLines : List CStr)
    (syn : Syn) : Nat → Nat → OptAccum → OptAccum
  | 0, _, acc => acc
  | fuel + 1, i, acc =>
      if i < origLines.length then
        let r := peepholeLine insertHotAlign amd cpu origLines (i + 1)
          (origLines.getD i []) syn
        optLoop insertHotAlign amd cpu origLines syn fuel (i + 1 + r.skip)
          ⟨acc.stored ++ r.stored, acc.events ++ r.events,
           acc.repl + (if r.replaced then 1 else 0),
           acc.rem + (if r.removed then 1 else 0)⟩
      else acc

/-- `asmopt_optimize`: returns the context unchanged when no input has
been parsed (the `-1` path); otherwise runs the scan (or copies the
original lines when optimization is suppressed) and fills the stats. -/
def optimizeCtx (ctx : Ctx) : Ctx :=
  if !ctx.hasInput then ctx
  else
    let syn := detectSyn ctx.format ctx.originalLines
    let hot := optionEnabled ctx (str "hot_align")
    let count := ctx.originalLines.length
    if shouldOptimize ctx then
      let acc := optLoop hot ctx.amdOptimizations ctx.targetCpu
        ctx.originalLines syn count 0 ⟨[], [], 0, 0⟩
      let optimized := ctx.optimizedLines ++ acc.stored
      { ctx with
          optimizedLines := optimized
          events := ctx.events ++ acc.events
          stats := ⟨count, optimized.length, acc.repl, acc.rem⟩
          insertHotAlign := hot }
    else
      { ctx with
          optimizedLines := ctx.optimizedLines ++ ctx.originalLines
          stats := ⟨count, count, 0, 0⟩
          insertHotAlign := hot }

/-- `asmopt_generate_assembly`: falls back to the original lines while
`OptimizedLines` is empty. -/
def generateAssembly (ctx : Ctx) : CStr :=
  if ctx.optimizedLines.isEmpty && ctx.hasInput then
    joinLines ctx.originalLines ctx.trailingNewline
  else joinLines ctx.optimizedLines ctx.trailingNewline

/-! ## IR and CFG builders -/

/-- The closed set of IR line kinds (stored as strings in the source). -/
inductive IRKind where
  | blank
  | directive
  | label
  | instruction
  | text
deriving DecidableEq, Repr

structure IRLine where
  lineNo : Nat
  kind : IRKind
  text : CStr
  mnemonic : CStr
  operands : List CStr
deriving DecidableEq, Repr

/-- Split on every occurrence of a character (the operand tokenizer loop). -/
def splitOnChar (ch : Char) : CStr → List CStr
  | [] => [[]]
  | c :: cs =>
      if c = ch then [] :: splitOnChar ch cs
      else match splitOnChar ch cs with
        | [] => [[c]]
        | seg :: rest => (c :: seg) :: rest

/-- The comma-separated, trimmed, non-empty operand tokens of `build_ir`. -/
def irOperandTokens (operands : CStr) : List CStr :=
  if operands.isEmpty then []
  else ((splitOnChar ',' operands).map strip).filter (fun t => !t.isEmpty)

/-- `asmopt_build_ir`: classify each original line. -/
def buildIrLine (i : Nat) (line : CStr) : IRLine :=
  let sc := splitComment line
  let trimmed := strip sc.1
  match trimmed with
  | [] => ⟨i + 1, .blank, [], [], []⟩
  | c :: _ =>
      if c = '.' then ⟨i + 1, .directive, trimmed, [], []⟩
      else if trimmed.getLast? = some ':' then
        ⟨i + 1, .label, trimmed.dropLast, [], []⟩
      else
        match parseInstruction sc.1 with
        | some (_, mnemonic, _, operands) =>
            ⟨i + 1, .instruction, trimmed, mnemonic, irOperandTokens operands⟩
        | none => ⟨i + 1, .text, trimmed, [], []⟩

def buildIr (lines : List CStr) : List IRLine :=
  (lines.enum).map (fun p => buildIrLine p.1 p.2)

structure CfgBlock where
  name : CStr
  instrs : List IRLine
deriving DecidableEq, Repr

structure CfgEdge where
  source : CStr
  target : CStr
deriving DecidableEq, Repr

/-- The block-accumulation walk of `asmopt_build_cfg` (names still
optional; synthetic names are filled in afterwards). -/
def cfgWalk : List IRLine → Option CStr → List IRLine →
    List (Option CStr × List IRLine)
  | [], currentLabel, currentInstrs =>
      if currentLabel.isSome || !currentInstrs.isEmpty then
        [(currentLabel, currentInstrs)]
      else []
  | line :: rest, currentLabel, currentInstrs =>
      if line.kind = .label then
        if currentLabel.isSome || !currentInstrs.isEmpty then
          (currentLabel, currentInstrs) :: cfgWalk rest (some line.text) []
        else cfgWalk rest (some line.text) []
      else if line.kind = .instruction then
        let instrs := currentInstrs ++ [line]
        if isJumpMnemonic line.mnemonic || isReturn line.mnemonic then
          (currentLabel, instrs) :: cfgWalk rest none []
        else cfgWalk rest currentLabel instrs
      else cfgWalk rest currentLabel currentInstrs

/-- Fill missing block names with `block{index}`; synthesize a single
`block0` when no block was produced. -/
def cfgBlocksOf (ir : List IRLine) : List CfgBlock :=
  let raw := cfgWalk ir none []
  if raw.isEmpty then [⟨str "block0", []⟩]
  else raw.enum.map (fun p =>
    ⟨p.2.1.getD (str "block" ++ natDecimal p.1), p.2.2⟩)

/-- `asmopt_jump_target`: the first operand with leading `*`s stripped,
when label-shaped. -/
def jumpTarget (line : IRLine) : Option CStr :=
  match line.operands with
  | [] => none
  | operand :: _ =>
      let op := operand.dropWhile (· = '*')
      match op with
      | [] => none
      | c :: _ =>
          if (isAlphaC c || c = '_' || c = '.') &&
             op.all (fun x => isAlnumC x || x = '_' || x = '.') then some op
          else none

/-- `asmopt_find_block_index`: first block with the given name. -/
def findBlockIndex (blocks : List CfgBlock) (name : CStr) : Option Nat :=
  blocks.findIdx? (fun b => b.name = name)

/-- The edges added for block `i` in the edge-insertion loop. -/
def cfgEdgesFor (blocks : List CfgBlock) (i : Nat) : List CfgEdge :=
  match blocks.get? i with
  | none => []
  | some block =>
      if block.instrs.isEmpty then []
      else
        match block.instrs.getLast? with
        | none => []
        | some last =>
            if isJumpMnemonic last.mnemonic then
              (match jumpTarget last with
               | some target =>
                   (match findBlockIndex blocks target with
                    | some idx =>
                        (match blocks.get? idx with
                         | some tb => [⟨block.name, tb.name⟩]
                         | none => [])
                    | none => [])
               | none => []) ++
              (if isConditionalJump last.mnemonic then
                 match blocks.get? (i + 1) with
                 | some nb => [⟨block.name, nb.name⟩]
                 | none => []
               else [])
            else if isReturn last.mnemonic then []
            else
              match blocks.get? (i + 1) with
              | some nb => [⟨block.name, nb.name⟩]
              | none => []

def cfgEdgesOf (blocks : List CfgBlock) : List CfgEdge :=
  (List.range blocks.length).foldl (fun acc i => acc ++ cfgEdgesFor blocks i) []

/-- `asmopt_build_cfg`: blocks, then edges. -/
def buildCfg (ir : List IRLine) : List CfgBlock × List CfgEdge :=
  if ir.isEmpty then ([], [])
  else
    let blocks := cfgBlocksOf ir
    (blocks, cfgEdgesOf blocks)

end Asmopt


namespace Asmopt

/-- A flag as a count. -/
def b2n (b : Bool) : Nat := if b then 1 else 0

/-- Count the events carrying a given pattern name. -/
def countPat (events : List OptEvent) (name : CStr) : Nat :=
  (events.filter (fun e => e.pattern = name)).length

/-- The per-call stats/event relation of a peephole result:
`replaced + removed + #hot_loop_align = #events + #dead_store_move +
#load_modify_store + #invert_conditional_jump`. -/
def presInvB (r : PRes) : Bool :=
  b2n r.replaced + b2n r.removed + countPat r.events (str "hot_loop_align") ==
  r.events.length + countPat r.events (str "dead_store_move") +
    countPat r.events (str "load_modify_store") +
    countPat r.events (str "invert_conditional_jump")

/-- The loop accumulator version of the stats/event relation. -/
def AccInv (acc : OptAccum) : Prop :=
  acc.repl + acc.rem + countPat acc.events (str "hot_loop_align") =
    acc.events.length + countPat acc.events (str "dead_store_move") +
    countPat acc.events (str "load_modify_store") +
    countPat acc.events (str "invert_conditional_jump")

/-- A run of the optimizer under the default options. -/
def defaultRun (text : CStr) : Ctx := optimizeCtx (parseString createCtx text)

end Asmopt

namespace Asmopt

lemma tryMovSingle_inv (L : LineCtx) (syn : Syn) :
    ∀ r, tryMovSingle L syn = some r → presInvB r = true := by
  intro r h
  unfold tryMovSingle at h
  repeat' (first | split at h | simp only [] at h)
  all_goals first
    | (injection h with h2; subst h2; rfl)
    | exact absurd h (by simp)

lemma tryLea_inv (L : LineCtx) (syn : Syn) :
    ∀ r, tryLea L syn = some r → presInvB r = true := by
  intro r h
  unfold tryLea at h
  repeat' (first | split at h | simp only [] at h)
  all_goals first
    | (injection h with h2; subst h2; rfl)
    | exact absurd h (by simp)

lemma tryDeadStore_inv (L : LineCtx) (syn : Syn) (ol : List CStr) :
    ∀ r, tryDeadStore L syn ol = some r → presInvB r = true := by
  intro r h
  unfold tryDeadStore at h
  repeat' (first | split at h | simp only [] at h)
  all_goals first
    | (injection h with h2; subst h2; rfl)
    | exact absurd h (by simp)

lemma trySwap_inv (L : LineCtx) (syn : Syn) (ol : List CStr) :
    ∀ r, trySwap L syn ol = some r → presInvB r = true := by
  intro r h
  unfold trySwap at h
  repeat' (first | split at h | simp only [] at h)
  all_goals first
    | (injection h with h2; subst h2; rfl)
    | exact absurd h (by simp)

lemma tryLms_inv (L : LineCtx) (syn : Syn) (ol : List CStr) :
    ∀ r, tryLms L syn ol = some r → presInvB r = true := by
  intro r h
  unfold tryLms at h
  repeat' (first | split at h | simp only [] at h)
  all_goals first
    | (injection h with h2; subst h2; rfl)
    | exact absurd h (by simp)

lemma tryMovPair_inv (L : LineCtx) (syn : Syn) (ol : List CStr) :
    ∀ r, tryMovPair L syn ol = some r → presInvB r = true := by
  intro r h
  unfold tryMovPair at h
  repeat' (first | split at h | simp only [] at h)
  all_goals first
    | (injection h with h2; subst h2; rfl)
    | exact absurd h (by simp)

lemma trySubSelf_inv (L : LineCtx) :
    ∀ r, trySubSelf L = some r → presInvB r = true := by
  intro r h
  unfold trySubSelf trySelfPattern at h
  repeat' (first | split at h | simp only [] at h)
  all_goals first
    | (injection h with h2; subst h2; rfl)
    | exact absurd h (by simp)

lemma tryOrSelf_inv (L : LineCtx) :
    ∀ r, tryOrSelf L = some r → presInvB r = true := by
  intro r h
  unfold tryOrSelf trySelfPattern at h
  repeat' (first | split at h | simp only [] at h)
  all_goals first
    | (injection h with h2; subst h2; rfl)
    | exact absurd h (by simp)

lemma tryAndSelf_inv (L : LineCtx) :
    ∀ r, tryAndSelf L = some r → presInvB r = true := by
  intro r h
  unfold tryAndSelf trySelfPattern at h
  repeat' (first | split at h | simp only [] at h)
  all_goals first
    | (injection h with h2; subst h2; rfl)
    | exact absurd h (by simp)

lemma tryCmpSelf_inv (L : LineCtx) :
    ∀ r, tryCmpSelf L = some r → presInvB r = true := by
  intro r h
  unfold tryCmpSelf trySelfPattern at h
  repeat' (first | split at h | simp only [] at h)
  all_goals first
    | (injection h with h2; subst h2; rfl)
    | exact absurd h (by simp)

lemma tryAndZero_inv (L : LineCtx) (syn : Syn) :
    ∀ r, tryAndZero L syn = some r → presInvB r = true := by
  intro r h
  unfold tryAndZero at h
  repeat' (first | split at h | simp only [] at h)
  all_goals first
    | (injection h with h2; subst h2; rfl)
    | exact absurd h (by simp)

lemma tryCmpZero_inv (L : LineCtx) (syn : Syn) :
    ∀ r, tryCmpZero L syn = some r → presInvB r = true := by
  intro r h
  unfold tryCmpZero at h
  repeat' (first | split at h | simp only [] at h)
  all_goals first
    | (injection h with h2; subst h2; rfl)
    | exact absurd h (by simp)

lemma tryAddMinusOne_inv (L : LineCtx) (syn : Syn) :
    ∀ r, tryAddMinusOne L syn = some r → presInvB r = true := by
  intro r h
  unfold tryAddMinusOne at h
  repeat' (first | split at h | simp only [] at h)
  all_goals first
    | (injection h with h2; subst h2; rfl)
    | exact absurd h (by simp)

lemma trySubMinusOne_inv (L : LineCtx) (syn : Syn) :
    ∀ r, trySubMinusOne L syn = some r → presInvB r = true := by
  intro r h
  unfold trySubMinusOne at h
  repeat' (first | split at h | simp only [] at h)
  all_goals first
    | (injection h with h2; subst h2; rfl)
    | exact absurd h (by simp)

lemma tryFallthrough_inv (L : LineCtx) (ol : List CStr) :
    ∀ r, tryFallthrough L ol = some r → presInvB r = true := by
  intro r h
  unfold tryFallthrough at h
  repeat' (first | split at h | simp only [] at h)
  all_goals first
    | (injection h with h2; subst h2; rfl)
    | exact absurd h (by simp)

lemma tryInvert_inv (L : LineCtx) (ol : List CStr) :
    ∀ r, tryInvert L ol = some r → presInvB r = true := by
  intro r h
  unfold tryInvert at h
  repeat' (first | split at h | simp only [] at h)
  all_goals first
    | (injection h with h2; subst h2; rfl)
    | exact absurd h (by simp)

lemma tryBsf_inv (L : LineCtx) (syn : Syn) (amd : Bool) (cpu : CStr)
    (ol : List CStr) :
    ∀ r, tryBsf L syn amd cpu ol = some r → presInvB r = true := by
  intro r h
  unfold tryBsf at h
  repeat' (first | split at h | simp only [] at h)
  all_goals first
    | (injection h with h2; subst h2; rfl)
    | exact absurd h (by simp)

lemma tryImul_inv (L : LineCtx) (syn : Syn) :
    ∀ r, tryImul L syn = some r → presInvB r = true := by
  intro r h
  unfold tryImul at h
  repeat' (first | split at h | simp only [] at h)
  all_goals first
    | (injection h with h2; subst h2; rfl)
    | exact absurd h (by simp)

lemma tryAddSubZero_inv (L : LineCtx) (syn : Syn) :
    ∀ r, tryAddSubZero L syn = some r → presInvB r = true := by
  intro r h
  unfold tryAddSubZero at h
  repeat' (first | split at h | simp only [] at h)
  all_goals first
    | (injection h with h2; subst h2; rfl)
    | exact absurd h (by simp)

lemma tryShiftZero_inv (L : LineCtx) (syn : Syn) :
    ∀ r, tryShiftZero L syn = some r → presInvB r = true := by
  intro r h
  unfold tryShiftZero at h
  repeat' (first | split at h | simp only [] at h)
  all_goals first
    | (injection h with h2; subst h2; rfl)
    | exact absurd h (by simp)

lemma tryOrZero_inv (L : LineCtx) (syn : Syn) :
    ∀ r, tryOrZero L syn = some r → presInvB r = true := by
  intro r h
  unfold tryOrZero at h
  repeat' (first | split at h | simp only [] at h)
  all_goals first
    | (injection h with h2; subst h2; rfl)
    | exact absurd h (by simp)

lemma tryXorZero_inv (L : LineCtx) (syn : Syn) :
    ∀ r, tryXorZero L syn = some r → presInvB r = true := by
  intro r h
  unfold tryXorZero at h
  repeat' (first | split at h | simp only [] at h)
  all_goals first
    | (injection h with h2; subst h2; rfl)
    | exact absurd h (by simp)

lemma tryAndMinusOne_inv (L : LineCtx) (syn : Syn) :
    ∀ r, tryAndMinusOne L syn = some r → presInvB r = true := by
  intro r h
  unfold tryAndMinusOne at h
  repeat' (first | split at h | simp only [] at h)
  all_goals first
    | (injection h with h2; subst h2; rfl)
    | exact absurd h (by simp)

lemma tryAddOne_inv (L : LineCtx) (syn : Syn) :
    ∀ r, tryAddOne L syn = some r → presInvB r = true := by
  intro r h
  unfold tryAddOne at h
  repeat' (first | split at h | simp only [] at h)
  all_goals first
    | (injection h with h2; subst h2; rfl)
    | exact absurd h (by simp)

lemma trySubOne_inv (L : LineCtx) (syn : Syn) :
    ∀ r, trySubOne L syn = some r → presInvB r = true := by
  intro r h
  unfold trySubOne at h
  repeat' (first | split at h | simp only [] at h)
  all_goals first
    | (injection h with h2; subst h2; rfl)
    | exact absurd h (by simp)

lemma firstSome_getD_inv (line : CStr) :
    ∀ (l : List (Option PRes)),
      (∀ o ∈ l, ∀ r, o = some r → presInvB r = true) →
      presInvB ((firstSome l).getD (presStore line)) = true := by
  intro l
  induction l with
  | nil => intro _; rfl
  | cons o rest ih =>
      intro h
      unfold firstSome
      cases o with
      | some r =>
          simpa using h (some r) (List.mem_cons_self _ _) r rfl
      | none =>
          exact ih (fun o ho => h o (List.mem_cons_of_mem _ ho))

lemma peepholeLine_inv (iha amd : Bool) (cpu : CStr) (ol : List CStr)
    (n : Nat) (line : CStr) (syn : Syn) :
    presInvB (peepholeLine iha amd cpu ol n line syn) = true := by
  unfold peepholeLine
  simp only []
  split
  · split
    · rfl
    · rfl
  · split
    · rfl
    · apply firstSome_getD_inv
      intro o ho r hr
      simp only [List.mem_cons, List.not_mem_nil, or_false] at ho
      rcases ho with rfl|rfl|rfl|rfl|rfl|rfl|rfl|rfl|rfl|rfl|rfl|rfl|rfl|rfl|rfl|rfl|rfl|rfl|rfl|rfl|rfl|rfl|rfl|rfl|rfl
      · exact tryMovSingle_inv _ _ r hr
      · exact tryLea_inv _ _ r hr
      · exact tryDeadStore_inv _ _ _ r hr
      · exact trySwap_inv _ _ _ r hr
      · exact tryLms_inv _ _ _ r hr
      · exact tryMovPair_inv _ _ _ r hr
      · exact trySubSelf_inv _ r hr
      · exact tryAndZero_inv _ _ r hr
      · exact tryCmpZero_inv _ _ r hr
      · exact tryOrSelf_inv _ r hr
      · exact tryAddMinusOne_inv _ _ r hr
      · exact trySubMinusOne_inv _ _ r hr
      · exact tryAndSelf_inv _ r hr
      · exact tryCmpSelf_inv _ r hr
      · exact tryFallthrough_inv _ _ r hr
      · exact tryInvert_inv _ _ r hr
      · exact tryBsf_inv _ _ _ _ _ r hr
      · exact tryImul_inv _ _ r hr
      · exact tryAddSubZero_inv _ _ r hr
      · exact tryShiftZero_inv _ _ r hr
      · exact tryOrZero_inv _ _ r hr
      · exact tryXorZero_inv _ _ r hr
      · exact tryAndMinusOne_inv _ _ r hr
      · exact tryAddOne_inv _ _ r hr
      · exact trySubOne_inv _ _ r hr

end Asmopt

namespace Asmopt

lemma countPat_append (a b : List OptEvent) (name : CStr) :
    countPat (a ++ b) name = countPat a name + countPat b name := by
  simp [countPat, List.filter_append]

lemma presInv_nat (r : PRes) (h : presInvB r = true) :
    b2n r.replaced + b2n r.removed + countPat r.events (str "hot_loop_align") =
      r.events.length + countPat r.events (str "dead_store_move") +
      countPat r.events (str "load_modify_store") +
      countPat r.events (str "invert_conditional_jump") := by
  unfold presInvB at h
  simpa only [beq_iff_eq] using h

lemma optLoop_inv (iha amd : Bool) (cpu : CStr) (ol : List CStr) (syn : Syn) :
    ∀ (fuel i : Nat) (acc : OptAccum), AccInv acc →
      AccInv (optLoop iha amd cpu ol syn fuel i acc) := by
  intro fuel
  induction fuel with
  | zero => intro i acc hacc; exact hacc
  | succ f ih =>
      intro i acc hacc
      unfold optLoop
      split
      · apply ih
        have hp := presInv_nat _ (peepholeLine_inv iha amd cpu ol (i + 1)
          (ol.getD i []) syn)
        simp only [b2n] at hp
        unfold AccInv at hacc ⊢
        simp only [countPat_append, List.length_append]
        omega
      · exact hacc

lemma optimize_inv_of_no_events (c : Ctx) (h : c.events = [])
    (h2 : c.hasInput = true) :
    (optimizeCtx c).stats.replacements + (optimizeCtx c).stats.removals +
      countPat (optimizeCtx c).events (str "hot_loop_align") =
    (optimizeCtx c).events.length +
      countPat (optimizeCtx c).events (str "dead_store_move") +
      countPat (optimizeCtx c).events (str "load_modify_store") +
      countPat (optimizeCtx c).events (str "invert_conditional_jump") := by
  unfold optimizeCtx
  split
  · simp [h2] at *
  · simp only []
    split
    · have hl := optLoop_inv (optionEnabled c (str "hot_align"))
        c.amdOptimizations c.targetCpu c.originalLines
        (detectSyn c.format c.originalLines) c.originalLines.length 0
        ⟨[], [], 0, 0⟩ (by unfold AccInv; simp [countPat])
      unfold AccInv at hl
      simp only [h, List.nil_append]
      simpa [countPat] using hl
    · simp [h, countPat]

end Asmopt

namespace Asmopt

lemma name_mem_of_get? (blocks : List CfgBlock) (n : Nat) (b : CfgBlock)
    (h : blocks.get? n = some b) : ∃ x ∈ blocks, x.name = b.name :=
  ⟨b, List.get?_mem h, rfl⟩

lemma cfgEdgesFor_endpoints (blocks : List CfgBlock) (i : Nat) :
    ∀ e ∈ cfgEdgesFor blocks i,
      (∃ b ∈ blocks, b.name = e.source) ∧ (∃ b ∈ blocks, b.name = e.target) := by
  intro e he
  unfold cfgEdgesFor at he
  repeat' first
    | (rw [List.mem_append] at he; rcases he with he | he)
    | split at he
  all_goals first
    | (simp only [List.mem_singleton] at he
       subst he
       exact ⟨name_mem_of_get? _ _ _ (by assumption),
              name_mem_of_get? _ _ _ (by assumption)⟩)
    | simp at he

lemma mem_foldl_append {α β : Type} (f : β → List α) (l : List β)
    (init : List α) :
    ∀ a ∈ l.foldl (fun acc i => acc ++ f i) init, a ∈ init ∨ ∃ i ∈ l, a ∈ f i := by
  induction l generalizing init with
  | nil => intro a ha; exact Or.inl ha
  | cons x xs ih =>
      intro a ha
      rcases ih (init ++ f x) a ha with h | ⟨i, hi, hfi⟩
      · rw [List.mem_append] at h
        rcases h with h | h
        · exact Or.inl h
        · exact Or.inr ⟨x, List.mem_cons_self _ _, h⟩
      · exact Or.inr ⟨i, List.mem_cons_of_mem _ hi, hfi⟩

end Asmopt

namespace Asmopt

lemma foldl_digits_ge (b : Nat) (hb : 1 ≤ b) :
    ∀ (l : CStr) (a : Nat),
      a ≤ l.foldl (fun acc c => acc * b + digitValC c) a := by
  intro l
  induction l with
  | nil => intro a; exact Nat.le_refl a
  | cons c r ih =>
      intro a
      have h1 : a ≤ a * b + digitValC c := by
        have := Nat.mul_le_mul_left a hb
        omega
      calc a ≤ a * b + digitValC c := h1
        _ ≤ _ := ih (a * b + digitValC c)

lemma foldl_val10_imp_val8 :
    ∀ (l : CStr) (a : Nat), a ≤ 1 →
      l.foldl (fun acc c => acc * 10 + digitValC c) a = 1 →
      l.foldl (fun acc c => acc * 8 + digitValC c) a = 1 := by
  intro l
  induction l with
  | nil => intro a _ h; simpa using h
  | cons c r ih =>
      intro a ha h
      simp only [List.foldl_cons] at h ⊢
      have hge := foldl_digits_ge 10 (by norm_num) r (a * 10 + digitValC c)
      rw [h] at hge
      have ha0 : a = 0 := by omega
      have hdv : digitValC c ≤ 1 := by omega
      subst ha0
      simp only [Nat.zero_mul, Nat.zero_add] at h ⊢
      exact ih (digitValC c) hdv h

lemma takeWhile_eq_self_of_dropWhile_nil {p : Char → Bool} {l : CStr}
    (h : l.dropWhile p = []) : l.takeWhile p = l := by
  have h2 := List.takeWhile_append_dropWhile (p := p) (l := l)
  rw [h, List.append_nil] at h2
  exact h2

lemma digitsPart_one (neg : Bool) (v s : CStr)
    (h10ok : strtolOk (strtolDigitsPart 10 neg v s) = true)
    (h10v : (strtolDigitsPart 10 neg v s).value = 1)
    (h8ok : strtolOk (strtolDigitsPart 8 neg v s) = true) :
    (strtolDigitsPart 8 neg v s).value = 1 := by
  unfold strtolDigitsPart strtolOk strtolIsDigit at *
  norm_num at h10ok h10v h8ok ⊢
  split at h10v
  · rename_i hemp
    rw [if_pos hemp] at h10ok
    simp at h10ok
  · rename_i hemp10
    rw [if_neg hemp10] at h10ok
    split at h8ok
    · rename_i hemp8
      rw [if_pos hemp8]
      simp at h8ok
    · rename_i hemp8
      rw [if_neg hemp8]
      simp only [Bool.and_eq_true, List.isEmpty_iff] at h10ok h8ok
      have htw10 := takeWhile_eq_self_of_dropWhile_nil h10ok.2
      have htw8 := takeWhile_eq_self_of_dropWhile_nil h8ok.2
      rw [htw10] at h10v
      simp only []
      rw [htw8]
      cases hneg : neg with
      | true =>
          rw [hneg] at h10v
          exfalso
          simp only [if_true] at h10v
          rcases max_cases
              (-((v.foldl (fun acc c => acc * 10 + digitValC c) 0 : Nat) : Int))
              longMin with ⟨h1, _⟩ | ⟨h1, _⟩ <;>
            rw [h1] at h10v <;>
            simp only [longMin] at * <;> omega
      | false =>
          rw [hneg] at h10v
          simp only [Bool.false_eq_true, if_false] at h10v ⊢
          have hmag10 : (v.foldl (fun acc c => acc * 10 + digitValC c) 0) = 1 := by
            rcases min_cases
                ((v.foldl (fun acc c => acc * 10 + digitValC c) 0 : Nat) : Int)
                longMax with ⟨h1, _⟩ | ⟨h1, h2⟩
            · rw [h1] at h10v; exact_mod_cast h10v
            · rw [h1] at h10v; simp only [longMax] at h10v; omega
          have hmag8 : (v.foldl (fun acc c => acc * 8 + digitValC c) 0) = 1 :=
            foldl_val10_imp_val8 v 0 (by norm_num) hmag10
          rw [hmag8]
          rcases min_cases ((1:Nat) : Int) longMax with ⟨h1, _⟩ | ⟨_, h2⟩
          · simpa using h1
          · simp only [longMax] at h2; omega

lemma strtol_one_of_base10_one (op : CStr)
    (h10ok : strtolOk (strtolModel op 10) = true)
    (h10v : (strtolModel op 10).value = 1)
    (h8ok : strtolOk (strtolModel op 8) = true) :
    (strtolModel op 8).value = 1 := by
  have e10 : strtolModel op 10 =
      strtolDigitsPart 10 (strtolSign (op.dropWhile isSpC)).1
        (strtolSign (op.dropWhile isSpC)).2 op := rfl
  have e8 : strtolModel op 8 =
      strtolDigitsPart 8 (strtolSign (op.dropWhile isSpC)).1
        (strtolSign (op.dropWhile isSpC)).2 op := rfl
  rw [e10] at h10ok h10v
  rw [e8] at h8ok ⊢
  exact digitsPart_one _ _ _ h10ok h10v h8ok

end Asmopt

namespace Asmopt

lemma parse_eq_one_of_immOne (op : CStr) (syn : Syn) (k : Int)
    (hp : parseImmediate op syn = some k)
    (h1 : isImmediateOne op syn = true) : k = 1 := by
  unfold parseImmediate at hp
  unfold isImmediateOne at h1
  cases hsig : immAfterSigil op syn with
  | none => rw [hsig] at hp; exact absurd hp (by simp)
  | some op1 =>
      rw [hsig] at hp h1
      simp only [] at hp h1
      cases hop : op1.dropWhile isSpC with
      | nil => rw [hop] at hp; exact absurd hp (by simp)
      | cons c0 ct =>
          rw [hop] at hp h1
          repeat' split at hp
          all_goals simp_all
          all_goals
            (rename_i hok
             have h8v := strtol_one_of_base10_one _ h1.1 h1.2 hok
             omega)

end Asmopt

namespace Asmopt

lemma tryMovSingle_none (L : LineCtx) (syn : Syn) (h : L.base ≠ str "mov")
    (h2 : L.ml ≠ str "mov") : tryMovSingle L syn = none := by
  unfold tryMovSingle; simp [h, h2]

lemma tryLea_none (L : LineCtx) (syn : Syn) (h : L.base ≠ str "lea") :
    tryLea L syn = none := by
  unfold tryLea; simp [h]

lemma tryDeadStore_none_base (L : LineCtx) (syn : Syn) (ol : List CStr)
    (h : L.base ≠ str "mov") : tryDeadStore L syn ol = none := by
  unfold tryDeadStore; simp [h]

lemma trySwap_none_base (L : LineCtx) (syn : Syn) (ol : List CStr)
    (h : L.base ≠ str "mov") : trySwap L syn ol = none := by
  unfold trySwap; simp [h]

lemma tryLms_none_base (L : LineCtx) (syn : Syn) (ol : List CStr)
    (h : L.base ≠ str "mov") : tryLms L syn ol = none := by
  unfold tryLms; simp [h]

lemma tryMovPair_none_base (L : LineCtx) (syn : Syn) (ol : List CStr)
    (h : L.base ≠ str "mov") : tryMovPair L syn ol = none := by
  unfold tryMovPair; simp [h]

lemma trySelfPattern_none_base (L : LineCtx) (b p n : CStr)
    (h : L.base ≠ b) : trySelfPattern L b p n = none := by
  unfold trySelfPattern; simp [h]

lemma tryAndZero_none_base (L : LineCtx) (syn : Syn)
    (h : L.base ≠ str "and") : tryAndZero L syn = none := by
  unfold tryAndZero; simp [h]

lemma tryCmpZero_none_base (L : LineCtx) (syn : Syn)
    (h : L.base ≠ str "cmp") : tryCmpZero L syn = none := by
  unfold tryCmpZero; simp [h]

lemma tryAddMinusOne_none_base (L : LineCtx) (syn : Syn)
    (h : L.base ≠ str "add") : tryAddMinusOne L syn = none := by
  unfold tryAddMinusOne; simp [h]

lemma trySubMinusOne_none_base (L : LineCtx) (syn : Syn)
    (h : L.base ≠ str "sub") : trySubMinusOne L syn = none := by
  unfold trySubMinusOne; simp [h]

lemma tryFallthrough_none_two (L : LineCtx) (ol : List CStr)
    (h : L.hasTwoOps = true) : tryFallthrough L ol = none := by
  unfold tryFallthrough; simp [h]

lemma tryInvert_none_two (L : LineCtx) (ol : List CStr)
    (h : L.hasTwoOps = true) : tryInvert L ol = none := by
  unfold tryInvert; simp [h]

lemma tryBsf_none_base (L : LineCtx) (syn : Syn) (amd : Bool) (cpu : CStr)
    (ol : List CStr) (h : L.base ≠ str "bsf") :
    tryBsf L syn amd cpu ol = none := by
  unfold tryBsf; simp [h]

lemma tryAddSubZero_none_base (L : LineCtx) (syn : Syn)
    (h1 : L.base ≠ str "add") (h2 : L.base ≠ str "sub") :
    tryAddSubZero L syn = none := by
  unfold tryAddSubZero; simp [h1, h2]

lemma tryShiftZero_none_base (L : LineCtx) (syn : Syn)
    (h1 : L.base ≠ str "shl") (h2 : L.base ≠ str "shr")
    (h3 : L.base ≠ str "sal") (h4 : L.base ≠ str "sar") :
    tryShiftZero L syn = none := by
  unfold tryShiftZero; simp [h1, h2, h3, h4]

lemma tryOrZero_none_base (L : LineCtx) (syn : Syn)
    (h : L.base ≠ str "or") : tryOrZero L syn = none := by
  unfold tryOrZero; simp [h]

lemma tryXorZero_none_base (L : LineCtx) (syn : Syn)
    (h : L.base ≠ str "xor") : tryXorZero L syn = none := by
  unfold tryXorZero; simp [h]

lemma tryAndMinusOne_none_base (L : LineCtx) (syn : Syn)
    (h : L.base ≠ str "and") : tryAndMinusOne L syn = none := by
  unfold tryAndMinusOne; simp [h]

lemma tryAddOne_none_base (L : LineCtx) (syn : Syn)
    (h : L.base ≠ str "add") : tryAddOne L syn = none := by
  unfold tryAddOne; simp [h]

lemma trySubOne_none_base (L : LineCtx) (syn : Syn)
    (h : L.base ≠ str "sub") : trySubOne L syn = none := by
  unfold trySubOne; simp [h]

lemma tryImul_pow (L : LineCtx) (syn : Syn) (v : Int)
    (hbase : L.base = str "imul") (h2 : L.hasTwoOps = true)
    (hd : L.destReg = true) (hone : isImmediateOne L.src syn = false)
    (hk : parseImmediate L.src syn = some v)
    (hpow : isPowerOfTwo v = true) :
    tryImul L syn = some (presReplace L.lineNo
      (str "mul_power_of_2_to_shift") L.line
      (twoOpLine L.indent (buildSuffixedName (str "shl") L.suffix) L.spacing
        L.dest L.preSpace L.postSpace
        ((if syn = .att then ['$'] else []) ++ natDecimal (cLog2 v))
        L.comment)) := by
  unfold tryImul
  simp [hbase, h2, hd, hone, hk, hpow]

lemma tryImul_none_notpow (L : LineCtx) (syn : Syn) (v : Int)
    (hone : isImmediateOne L.src syn = false)
    (hk : parseImmediate L.src syn = some v)
    (hpow : isPowerOfTwo v = false) :
    tryImul L syn = none := by
  unfold tryImul
  simp [hone, hk, hpow]

end Asmopt

namespace Asmopt

lemma trySubSelf_none_base (L : LineCtx) (h : L.base ≠ str "sub") :
    trySubSelf L = none := trySelfPattern_none_base L _ _ _ h

lemma tryOrSelf_none_base (L : LineCtx) (h : L.base ≠ str "or") :
    tryOrSelf L = none := trySelfPattern_none_base L _ _ _ h

lemma tryAndSelf_none_base (L : LineCtx) (h : L.base ≠ str "and") :
    tryAndSelf L = none := trySelfPattern_none_base L _ _ _ h

lemma tryCmpSelf_none_base (L : LineCtx) (h : L.base ≠ str "cmp") :
    tryCmpSelf L = none := trySelfPattern_none_base L _ _ _ h

lemma pow_facts (n : Nat) (h1 : 1 ≤ n) (h2 : n ≤ 30) :
    isPowerOfTwo ((2:Int)^n) = true ∧ cLog2 ((2:Int)^n) = n ∧
      ((2:Int)^n) ≠ 1 := by
  interval_cases n <;> exact ⟨by decide, by decide, by decide⟩

end Asmopt

namespace Asmopt

lemma tryImul_none_base (L : LineCtx) (syn : Syn)
    (h : L.base ≠ str "imul") : tryImul L syn = none := by
  unfold tryImul; simp [h]

lemma tryBsf_fire (L : LineCtx) (syn : Syn) (amd : Bool) (cpu : CStr)
    (ol : List CStr) (hbase : L.base = str "bsf") (h2 : L.hasTwoOps = true)
    (hd : L.destReg = true) (hs : L.srcReg = true)
    (hz : isTargetZen amd cpu = true)
    (hg : isZeroGuarded ol L.lineNo L.src syn = true) :
    tryBsf L syn amd cpu ol = some (presReplace L.lineNo (str "bsf_to_tzcnt")
      L.line (twoOpLine L.indent (buildSuffixedName (str "tzcnt") L.suffix)
        L.spacing L.dest L.preSpace L.postSpace L.src L.comment)) := by
  unfold tryBsf; simp [hbase, h2, hd, hs, hz, hg]

lemma tryBsf_none_zen (L : LineCtx) (syn : Syn) (amd : Bool) (cpu : CStr)
    (ol : List CStr) (hz : isTargetZen amd cpu = false) :
    tryBsf L syn amd cpu ol = none := by
  unfold tryBsf; simp [hz]

lemma tryBsf_none_guard (L : LineCtx) (syn : Syn) (amd : Bool) (cpu : CStr)
    (ol : List CStr)
    (hg : isZeroGuarded ol L.lineNo L.src syn = false) :
    tryBsf L syn amd cpu ol = none := by
  unfold tryBsf; simp [hg]

lemma isTargetZen_iff (amd : Bool) (cpu : CStr) :
    isTargetZen amd cpu = true ↔
      amd = true ∧ 3 ≤ cpu.length ∧ casePrefixLen cpu (str "zen") = true ∧
      (cpu.length = 3 ∨ ∃ c rest, cpu.drop 3 = c :: rest ∧ isDigitC c = true) := by
  unfold isTargetZen
  simp only [Bool.and_eq_true, decide_eq_true_eq]
  constructor
  · rintro ⟨⟨⟨hamd, hlen⟩, hpre⟩, htail⟩
    refine ⟨hamd, hlen, hpre, ?_⟩
    cases hdrop : cpu.drop 3 with
    | nil =>
        left
        have := List.drop_eq_nil_iff.mp hdrop
        omega
    | cons c rest =>
        right
        rw [hdrop] at htail
        exact ⟨c, rest, rfl, htail⟩
  · rintro ⟨hamd, hlen, hpre, htail⟩
    refine ⟨⟨⟨hamd, hlen⟩, hpre⟩, ?_⟩
    rcases htail with hlen3 | ⟨c, rest, hdrop, hdig⟩
    · have : cpu.drop 3 = [] := by
        apply List.drop_eq_nil_iff.mpr
        omega
      rw [this]
    · rw [hdrop]
      exact hdig

end Asmopt

namespace Asmopt

lemma tryMovSingle_none_inner (L : LineCtx) (syn : Syn)
    (hne : caseEq L.dest L.src = false)
    (hz : isImmediateZero L.src syn = false) : tryMovSingle L syn = none := by
  unfold tryMovSingle
  split
  · simp [hne, hz]
  · rfl

lemma tryDeadStore_none_diffdest (L : LineCtx) (syn : Syn) (ol : List CStr)
    (hlt : L.lineNo < ol.length) (nd ns : CStr)
    (hm : isMovNoComment (ol.get ⟨L.lineNo, hlt⟩) syn = some (nd, ns))
    (hd : caseEq L.dest nd = false) : tryDeadStore L syn ol = none := by
  unfold tryDeadStore
  split
  · simp only []
    rw [hm]
    simp [hd]
  · rfl


lemma trySwap_fire (L : LineCtx) (syn : Syn) (ol : List CStr)
    (hbase : L.base = str "mov") (h2 : L.hasTwoOps = true)
    (hd : L.destReg = true) (hs : L.srcReg = true)
    (hlt : L.lineNo < ol.length) (nd ns : CStr)
    (hm : isMovNoComment (ol.get ⟨L.lineNo, hlt⟩) syn = some (nd, ns))
    (c1 : caseEq L.dest nd = false) (c2 : caseEq L.dest ns = false)
    (c3 : caseEq L.src nd = false) (c4 : caseEq L.src ns = false) :
    trySwap L syn ol = some (presSwap L.lineNo L.line
      (ol.get ⟨L.lineNo, hlt⟩)) := by
  unfold trySwap
  rw [if_pos (by simp [hbase, h2, hd, hs])]
  rw [dif_pos hlt]
  simp only []
  rw [hm]
  simp [c1, c2, c3, c4]

end Asmopt


namespace Asmopt

/-- Claim C1: the specification claims that with optimization level 0, with
no_optimize set, or with the peephole optimization disabled,
`generate_assembly` returns the input byte-for-byte, also for inputs ending
in a newline.  The code does not: `split_lines` produces a trailing empty
segment for an input ending in a newline and `join_lines` then appends the
recorded trailing newline again, so the input "a\n" comes back as "a\n\n"
under all three disabling configurations. -/
theorem claim1_disabled_roundtrip_fails :
    generateAssembly (optimizeCtx (parseString
      (setOptimizationLevel createCtx 0) (str "a\n"))) = str "a\n\n" ∧
    generateAssembly (optimizeCtx (parseString
      (setNoOptimize createCtx true) (str "a\n"))) = str "a\n\n" ∧
    generateAssembly (optimizeCtx (parseString
      (disableOptimization createCtx (str "peephole")) (str "a\n"))) =
      str "a\n\n" ∧
    str "a\n\n" ≠ str "a\n" :=
  ⟨rfl, rfl, rfl, by decide⟩

/-- Claim C2 (counterexample): a `dead_store_move` run has
`replacements = 1` and `removals = 1` but records a single event, so
`replacements + removals = |events|` fails. -/
theorem claim2_counterexample :
    (defaultRun (str "mov rax, rbx\nmov rax, rcx")).stats.replacements = 1 ∧
    (defaultRun (str "mov rax, rbx\nmov rax, rcx")).stats.removals = 1 ∧
    (defaultRun (str "mov rax, rbx\nmov rax, rcx")).events.length = 1 ∧
    ¬ ((defaultRun (str "mov rax, rbx\nmov rax, rcx")).stats.replacements +
        (defaultRun (str "mov rax, rbx\nmov rax, rcx")).stats.removals =
       (defaultRun (str "mov rax, rbx\nmov rax, rcx")).events.length) :=
  ⟨rfl, rfl, rfl, by decide⟩

/-- Claim C2 (amended): for every context and input, after parse and
optimize the stats and events satisfy `replacements + removals +
#hot_loop_align = |events| + #dead_store_move + #load_modify_store +
#invert_conditional_jump`; the plain equality `replacements + removals =
|events|` holds only when the four listed patterns record no event. -/
theorem claim2_stats_event_relation (ctx : Ctx) (text : CStr) :
    (optimizeCtx (parseString ctx text)).stats.replacements +
      (optimizeCtx (parseString ctx text)).stats.removals +
      countPat (optimizeCtx (parseString ctx text)).events (str "hot_loop_align") =
    (optimizeCtx (parseString ctx text)).events.length +
      countPat (optimizeCtx (parseString ctx text)).events (str "dead_store_move") +
      countPat (optimizeCtx (parseString ctx text)).events (str "load_modify_store") +
      countPat (optimizeCtx (parseString ctx text)).events
        (str "invert_conditional_jump") :=
  optimize_inv_of_no_events (parseString ctx text) rfl rfl

/-- Claim C3 (counterexample): under the default options the input
"mov rax, rbx\nmov rbx, rax\n" does not optimize to "mov rax, rbx\n" with
exactly one event: the output carries an extra trailing newline and two
`redundant_move_pair` events are recorded. -/
theorem claim3_counterexample :
    ¬ (generateAssembly (defaultRun (str "mov rax, rbx\nmov rbx, rax\n")) =
         str "mov rax, rbx\n" ∧
       (defaultRun (str "mov rax, rbx\nmov rbx, rax\n")).events.length = 1) := by
  decide

/-- Claim C3 (amended): under the default options the input
"mov rax, rbx\nmov rbx, rax\n" optimizes to "mov rax, rbx\n\n" and records
two `redundant_move_pair` events: one at line 1 spanning both lines, one at
line 2 recording the removal. -/
theorem claim3_scenario :
    generateAssembly (defaultRun (str "mov rax, rbx\nmov rbx, rax\n")) =
      str "mov rax, rbx\n\n" ∧
    (defaultRun (str "mov rax, rbx\nmov rbx, rax\n")).events =
      [⟨1, str "redundant_move_pair", str "mov rax, rbx\nmov rbx, rax",
        str "mov rax, rbx"⟩,
       ⟨2, str "redundant_move_pair", str "mov rbx, rax", str "(removed)"⟩] :=
  ⟨rfl, rfl⟩

/-- Claim C4: the specification claims `dead_store_move` requires both movs
to be comment-free, so a first mov with a non-blank comment must not
trigger it.  The code checks only the next line for comments: with the
first mov carrying the non-blank comment "; keep" the pattern still fires
and drops the line, comment included. -/
theorem claim4_dead_store_ignores_comment :
    isBlank (splitComment (str "mov rax, rbx ; keep")).2 = false ∧
    (defaultRun (str "mov rax, rbx ; keep\nmov rax, rcx")).events.map
      (fun e => e.pattern) = [str "dead_store_move"] ∧
    (defaultRun (str "mov rax, rbx ; keep\nmov rax, rcx")).optimizedLines =
      [str "mov rax, rcx"] :=
  ⟨rfl, rfl, rfl⟩

/-- Claim C5: the specification claims every non-blank comment of an input
line survives into the output.  The `dead_store_move` pattern, fired on a
first mov that carries the comment "; hello", drops the whole line: the
comment text appears nowhere in the output. -/
theorem claim5_comment_lost :
    generateAssembly (defaultRun (str "mov rbx, rcx ; hello\nmov rbx, rdx\n")) =
      str "mov rbx, rdx\n\n" ∧
    ¬ List.IsInfix (str "hello")
        (generateAssembly
          (defaultRun (str "mov rbx, rcx ; hello\nmov rbx, rdx\n"))) :=
  ⟨rfl, by decide⟩

/-- Claim C6 (counterexample): `schedule_swap_move` fires on
"mov rax, rbx" followed by "mov rcx, rcx" although the second mov's
destination and source are the same register, so the claimed requirement
that all six register pairs be distinct does not hold in the code. -/
theorem claim6_counterexample :
    isMovNoComment (str "mov rcx, rcx") .intel = some (str "rcx", str "rcx") ∧
    (defaultRun (str "mov rax, rbx\nmov rcx, rcx")).events.map
      (fun e => e.pattern) = [str "schedule_swap_move"] ∧
    (defaultRun (str "mov rax, rbx\nmov rcx, rcx")).optimizedLines =
      [str "mov rcx, rcx", str "mov rax, rbx"] :=
  ⟨rfl, rfl, rfl⟩

/-- Claim C6 (amended): `schedule_swap_move` fires on two consecutive
register-to-register movs whenever the four cross pairs d1-d2, d1-s2,
s1-d2, s1-s2 are distinct (case-insensitively), the first mov is not an
identity and its source is not the immediate zero, and the next line is a
comment-free mov; the pair d2-s2 is never compared and the first line's
own comment is not examined.  On firing the second line is emitted before
the first, both retained. -/
theorem claim6_swap_fire_conditions (syn : Syn) (origLines : List CStr) (lineNo : Nat)
    (iha amd : Bool) (cpu : CStr)
    (line nextLine code comment indent mnemonic spacing operands
     op1 op2 pre post nd ns : CStr)
    (hsplit : splitComment line = (code, comment))
    (hdirl : isDirectiveOrLabel code = false)
    (hparse : parseInstruction code = some (indent, mnemonic, spacing, operands))
    (hbase : (stripSuffix (mnemonicLower mnemonic)).1 = str "mov")
    (hpo : parseOperands operands = some (op1, op2, pre, post))
    (hdreg : isRegister (synDest syn op1 op2) syn = true)
    (hsreg : isRegister (synSrc syn op1 op2) syn = true)
    (hnz : isImmediateZero (synSrc syn op1 op2) syn = false)
    (hds : caseEq (synDest syn op1 op2) (synSrc syn op1 op2) = false)
    (hnext : origLines.get? lineNo = some nextLine)
    (hm : isMovNoComment nextLine syn = some (nd, ns))
    (c1 : caseEq (synDest syn op1 op2) nd = false)
    (c2 : caseEq (synDest syn op1 op2) ns = false)
    (c3 : caseEq (synSrc syn op1 op2) nd = false)
    (c4 : caseEq (synSrc syn op1 op2) ns = false) :
    peepholeLine iha amd cpu origLines lineNo line syn =
      presSwap lineNo line nextLine := by
  obtain ⟨hlt, hget⟩ := List.get?_eq_some.mp hnext
  have hm2 : isMovNoComment (origLines.get ⟨lineNo, hlt⟩) syn =
      some (nd, ns) := by rw [hget]; exact hm
  have hLctx : mkLineCtx lineNo line code comment indent mnemonic spacing
      operands syn =
      ⟨lineNo, line, code, comment, indent, mnemonic, spacing, operands,
       mnemonicLower mnemonic, str "mov",
       (stripSuffix (mnemonicLower mnemonic)).2, true, op1, op2, pre, post,
       synDest syn op1 op2, synSrc syn op1 op2,
       isRegister (synDest syn op1 op2) syn,
       isRegister (synSrc syn op1 op2) syn⟩ := by
    unfold mkLineCtx
    rw [hpo]
    simp only [hbase]
  unfold peepholeLine
  rw [hsplit]
  simp only [hdirl, Bool.false_eq_true, if_false]
  rw [hparse]
  simp only []
  rw [hLctx]
  rw [tryMovSingle_none_inner _ _ hds hnz,
      tryLea_none _ _ (ne_of_eq_of_ne (rfl : _ = str "mov") (by decide)),
      tryDeadStore_none_diffdest _ _ _ hlt nd ns hm2 c1,
      trySwap_fire _ _ _ rfl rfl hdreg hsreg hlt nd ns hm2 c1 c2 c3 c4]
  simp only [firstSome, Option.getD_some]
  rw [hget]

/-- Claim C6 (witness): the amended swap theorem at a concrete instance. -/
theorem claim6_swap_fire_conditions_witness :
    peepholeLine false false (str "generic")
      [str "mov rax, rbx", str "mov rcx, rdx"] 1 (str "mov rax, rbx")
      .intel = presSwap 1 (str "mov rax, rbx") (str "mov rcx, rdx") :=
  claim6_swap_fire_conditions .intel [str "mov rax, rbx", str "mov rcx, rdx"]
    1 false false (str "generic") (str "mov rax, rbx") (str "mov rcx, rdx")
    (str "mov rax, rbx") [] [] (str "mov") [' '] (str "rax, rbx")
    (str "rax") (str "rbx") [] [' '] (str "rcx") (str "rdx")
    rfl rfl rfl rfl rfl rfl rfl rfl rfl rfl rfl rfl rfl rfl rfl

/-- Claim C7: `imul d, k` with a register destination is rewritten to a
left shift by n when k = 2 ^ n (1 ≤ n ≤ 30), the shift amount written as a
bare decimal in Intel syntax and with a `$` sigil in AT&T syntax, and is
left unchanged when k is outside (-1, 0, 1) and not a power of two. -/
theorem claim7_imul_power_of_two (syn : Syn) (origLines : List CStr) (lineNo : Nat)
    (iha amd : Bool) (cpu : CStr)
    (line code comment indent mnemonic spacing operands op1 op2 pre post : CStr)
    (hsplit : splitComment line = (code, comment))
    (hdirl : isDirectiveOrLabel code = false)
    (hparse : parseInstruction code = some (indent, mnemonic, spacing, operands))
    (hml : mnemonicLower mnemonic = str "imul")
    (hpo : parseOperands operands = some (op1, op2, pre, post))
    (hdreg : isRegister (synDest syn op1 op2) syn = true) :
    (∀ n : Nat, 1 ≤ n → n ≤ 30 →
       parseImmediate (synSrc syn op1 op2) syn = some (2 ^ n) →
       peepholeLine iha amd cpu origLines lineNo line syn =
         presReplace lineNo (str "mul_power_of_2_to_shift") line
           (twoOpLine indent (str "shl") spacing (synDest syn op1 op2) pre post
             ((if syn = .att then ['$'] else []) ++ natDecimal n) comment)) ∧
    (∀ k : Int, parseImmediate (synSrc syn op1 op2) syn = some k →
       k ≠ -1 → k ≠ 0 → k ≠ 1 → isPowerOfTwo k = false →
       peepholeLine iha amd cpu origLines lineNo line syn = presStore line) := by
  have hLctx : mkLineCtx lineNo line code comment indent mnemonic spacing
      operands syn =
      ⟨lineNo, line, code, comment, indent, mnemonic, spacing, operands,
       str "imul", str "imul", none, true, op1, op2, pre, post,
       synDest syn op1 op2, synSrc syn op1 op2,
       isRegister (synDest syn op1 op2) syn,
       isRegister (synSrc syn op1 op2) syn⟩ := by
    unfold mkLineCtx
    rw [hpo]
    simp only []
    rw [hml]
    rfl
  constructor
  · intro n h1 h30 hk
    obtain ⟨hpow, hclog, hne1⟩ := pow_facts n h1 h30
    have hone : isImmediateOne (synSrc syn op1 op2) syn = false := by
      cases h : isImmediateOne (synSrc syn op1 op2) syn with
      | true => exact absurd (parse_eq_one_of_immOne _ _ _ hk h) hne1
      | false => rfl
    unfold peepholeLine
    rw [hsplit]
    simp only [hdirl, Bool.false_eq_true, if_false]
    rw [hparse]
    simp only []
    rw [hLctx]
    rw [tryMovSingle_none _ _ (ne_of_eq_of_ne (rfl : _ = str "imul") (by decide))
          (ne_of_eq_of_ne (rfl : _ = str "imul") (by decide)),
        tryLea_none _ _ (ne_of_eq_of_ne (rfl : _ = str "imul") (by decide)),
        tryDeadStore_none_base _ _ _
          (ne_of_eq_of_ne (rfl : _ = str "imul") (by decide)),
        trySwap_none_base _ _ _
          (ne_of_eq_of_ne (rfl : _ = str "imul") (by decide)),
        tryLms_none_base _ _ _
          (ne_of_eq_of_ne (rfl : _ = str "imul") (by decide)),
        tryMovPair_none_base _ _ _
          (ne_of_eq_of_ne (rfl : _ = str "imul") (by decide)),
        trySubSelf_none_base _
          (ne_of_eq_of_ne (rfl : _ = str "imul") (by decide)),
        tryAndZero_none_base _ _
          (ne_of_eq_of_ne (rfl : _ = str "imul") (by decide)),
        tryCmpZero_none_base _ _
          (ne_of_eq_of_ne (rfl : _ = str "imul") (by decide)),
        tryOrSelf_none_base _
          (ne_of_eq_of_ne (rfl : _ = str "imul") (by decide)),
        tryAddMinusOne_none_base _ _
          (ne_of_eq_of_ne (rfl : _ = str "imul") (by decide)),
        trySubMinusOne_none_base _ _
          (ne_of_eq_of_ne (rfl : _ = str "imul") (by decide)),
        tryAndSelf_none_base _
          (ne_of_eq_of_ne (rfl : _ = str "imul") (by decide)),
        tryCmpSelf_none_base _
          (ne_of_eq_of_ne (rfl : _ = str "imul") (by decide)),
        tryFallthrough_none_two _ _ rfl,
        tryInvert_none_two _ _ rfl,
        tryBsf_none_base _ _ _ _ _
          (ne_of_eq_of_ne (rfl : _ = str "imul") (by decide))]
    rw [tryImul_pow _ _ ((2:Int)^n) rfl rfl hdreg hone hk hpow]
    simp only [firstSome, Option.getD_some]
    rw [hclog]
    rfl
  · intro k hk hkm1 hk0 hk1 hpow
    have hone : isImmediateOne (synSrc syn op1 op2) syn = false := by
      cases h : isImmediateOne (synSrc syn op1 op2) syn with
      | true => exact absurd (parse_eq_one_of_immOne _ _ _ hk h) hk1
      | false => rfl
    unfold peepholeLine
    rw [hsplit]
    simp only [hdirl, Bool.false_eq_true, if_false]
    rw [hparse]
    simp only []
    rw [hLctx]
    rw [tryMovSingle_none _ _ (ne_of_eq_of_ne (rfl : _ = str "imul") (by decide))
          (ne_of_eq_of_ne (rfl : _ = str "imul") (by decide)),
        tryLea_none _ _ (ne_of_eq_of_ne (rfl : _ = str "imul") (by decide)),
        tryDeadStore_none_base _ _ _
          (ne_of_eq_of_ne (rfl : _ = str "imul") (by decide)),
        trySwap_none_base _ _ _
          (ne_of_eq_of_ne (rfl : _ = str "imul") (by decide)),
        tryLms_none_base _ _ _
          (ne_of_eq_of_ne (rfl : _ = str "imul") (by decide)),
        tryMovPair_none_base _ _ _
          (ne_of_eq_of_ne (rfl : _ = str "imul") (by decide)),
        trySubSelf_none_base _
          (ne_of_eq_of_ne (rfl : _ = str "imul") (by decide)),
        tryAndZero_none_base _ _
          (ne_of_eq_of_ne (rfl : _ = str "imul") (by decide)),
        tryCmpZero_none_base _ _
          (ne_of_eq_of_ne (rfl : _ = str "imul") (by decide)),
        tryOrSelf_none_base _
          (ne_of_eq_of_ne (rfl : _ = str "imul") (by decide)),
        tryAddMinusOne_none_base _ _
          (ne_of_eq_of_ne (rfl : _ = str "imul") (by decide)),
        trySubMinusOne_none_base _ _
          (ne_of_eq_of_ne (rfl : _ = str "imul") (by decide)),
        tryAndSelf_none_base _
          (ne_of_eq_of_ne (rfl : _ = str "imul") (by decide)),
        tryCmpSelf_none_base _
          (ne_of_eq_of_ne (rfl : _ = str "imul") (by decide)),
        tryFallthrough_none_two _ _ rfl,
        tryInvert_none_two _ _ rfl,
        tryBsf_none_base _ _ _ _ _
          (ne_of_eq_of_ne (rfl : _ = str "imul") (by decide))]
    rw [tryImul_none_notpow _ _ k hone hk hpow]
    rw [tryAddSubZero_none_base _ _
          (ne_of_eq_of_ne (rfl : _ = str "imul") (by decide))
          (ne_of_eq_of_ne (rfl : _ = str "imul") (by decide)),
        tryShiftZero_none_base _ _
          (ne_of_eq_of_ne (rfl : _ = str "imul") (by decide))
          (ne_of_eq_of_ne (rfl : _ = str "imul") (by decide))
          (ne_of_eq_of_ne (rfl : _ = str "imul") (by decide))
          (ne_of_eq_of_ne (rfl : _ = str "imul") (by decide)),
        tryOrZero_none_base _ _
          (ne_of_eq_of_ne (rfl : _ = str "imul") (by decide)),
        tryXorZero_none_base _ _
          (ne_of_eq_of_ne (rfl : _ = str "imul") (by decide)),
        tryAndMinusOne_none_base _ _
          (ne_of_eq_of_ne (rfl : _ = str "imul") (by decide)),
        tryAddOne_none_base _ _
          (ne_of_eq_of_ne (rfl : _ = str "imul") (by decide)),
        trySubOne_none_base _ _
          (ne_of_eq_of_ne (rfl : _ = str "imul") (by decide))]
    simp only [firstSome, Option.getD_none]

/-- Claim C7 (witness): the imul theorem at concrete instances:
"imul rax, 8" becomes "shl rax, 3" and "imul rbx, 6" is unchanged. -/
theorem claim7_imul_power_of_two_witness :
    peepholeLine false false (str "generic") [str "imul rax, 8"] 1
      (str "imul rax, 8") .intel =
      presReplace 1 (str "mul_power_of_2_to_shift") (str "imul rax, 8")
        (str "shl rax, 3") ∧
    peepholeLine false false (str "generic") [str "imul rbx, 6"] 1
      (str "imul rbx, 6") .intel = presStore (str "imul rbx, 6") := by
  constructor
  · exact ((claim7_imul_power_of_two .intel [str "imul rax, 8"] 1 false false
      (str "generic") (str "imul rax, 8") (str "imul rax, 8") [] []
      (str "imul") [' '] (str "rax, 8") (str "rax") (str "8") [] [' ']
      rfl rfl rfl rfl rfl rfl).1 3 (by decide) (by decide)
      (by decide)).trans (by rfl)
  · exact (claim7_imul_power_of_two .intel [str "imul rbx, 6"] 1 false false
      (str "generic") (str "imul rbx, 6") (str "imul rbx, 6") [] []
      (str "imul") [' '] (str "rbx, 6") (str "rbx") (str "6") [] [' ']
      rfl rfl rfl rfl rfl rfl).2 6 (by decide) (by decide) (by decide)
      (by decide) (by decide)

/-- Claim C8: `bsf d, s` with both operands registers becomes
`tzcnt d, s` exactly when AMD optimizations are on, the target CPU is a
Zen (case-insensitive "zen" followed by end-of-string or a digit), and the
two preceding source lines are a zero check (`test s, s` or `cmp s, 0`)
followed by a zero branch (`jz` or `je`); otherwise the line is stored
unchanged. -/
theorem claim8_bsf_gating (syn : Syn) (origLines : List CStr) (lineNo : Nat)
    (iha amd : Bool) (cpu : CStr)
    (line code comment indent mnemonic spacing operands op1 op2 pre post : CStr)
    (hsplit : splitComment line = (code, comment))
    (hdirl : isDirectiveOrLabel code = false)
    (hparse : parseInstruction code = some (indent, mnemonic, spacing, operands))
    (hml : mnemonicLower mnemonic = str "bsf")
    (hpo : parseOperands operands = some (op1, op2, pre, post))
    (hdreg : isRegister (synDest syn op1 op2) syn = true)
    (hsreg : isRegister (synSrc syn op1 op2) syn = true) :
    (peepholeLine iha amd cpu origLines lineNo line syn =
      if isTargetZen amd cpu &&
         isZeroGuarded origLines lineNo (synSrc syn op1 op2) syn then
        presReplace lineNo (str "bsf_to_tzcnt") line
          (twoOpLine indent (str "tzcnt") spacing (synDest syn op1 op2)
            pre post (synSrc syn op1 op2) comment)
      else presStore line) ∧
    (∀ (amd2 : Bool) (cpu2 : CStr), isTargetZen amd2 cpu2 = true ↔
      amd2 = true ∧ 3 ≤ cpu2.length ∧ casePrefixLen cpu2 (str "zen") = true ∧
      (cpu2.length = 3 ∨ ∃ c rest, cpu2.drop 3 = c :: rest ∧
        isDigitC c = true)) := by
  refine ⟨?_, fun amd2 cpu2 => isTargetZen_iff amd2 cpu2⟩
  have hLctx : mkLineCtx lineNo line code comment indent mnemonic spacing
      operands syn =
      ⟨lineNo, line, code, comment, indent, mnemonic, spacing, operands,
       str "bsf", str "bsf", none, true, op1, op2, pre, post,
       synDest syn op1 op2, synSrc syn op1 op2,
       isRegister (synDest syn op1 op2) syn,
       isRegister (synSrc syn op1 op2) syn⟩ := by
    unfold mkLineCtx
    rw [hpo]
    simp only []
    rw [hml]
    rfl
  unfold peepholeLine
  rw [hsplit]
  simp only [hdirl, Bool.false_eq_true, if_false]
  rw [hparse]
  simp only []
  rw [hLctx]
  rw [tryMovSingle_none _ _ (ne_of_eq_of_ne (rfl : _ = str "bsf") (by decide))
        (ne_of_eq_of_ne (rfl : _ = str "bsf") (by decide)),
      tryLea_none _ _ (ne_of_eq_of_ne (rfl : _ = str "bsf") (by decide)),
      tryDeadStore_none_base _ _ _
        (ne_of_eq_of_ne (rfl : _ = str "bsf") (by decide)),
      trySwap_none_base _ _ _
        (ne_of_eq_of_ne (rfl : _ = str "bsf") (by decide)),
      tryLms_none_base _ _ _
        (ne_of_eq_of_ne (rfl : _ = str "bsf") (by decide)),
      tryMovPair_none_base _ _ _
        (ne_of_eq_of_ne (rfl : _ = str "bsf") (by decide)),
      trySubSelf_none_base _
        (ne_of_eq_of_ne (rfl : _ = str "bsf") (by decide)),
      tryAndZero_none_base _ _
        (ne_of_eq_of_ne (rfl : _ = str "bsf") (by decide)),
      tryCmpZero_none_base _ _
        (ne_of_eq_of_ne (rfl : _ = str "bsf") (by decide)),
      tryOrSelf_none_base _
        (ne_of_eq_of_ne (rfl : _ = str "bsf") (by decide)),
      tryAddMinusOne_none_base _ _
        (ne_of_eq_of_ne (rfl : _ = str "bsf") (by decide)),
      trySubMinusOne_none_base _ _
        (ne_of_eq_of_ne (rfl : _ = str "bsf") (by decide)),
      tryAndSelf_none_base _
        (ne_of_eq_of_ne (rfl : _ = str "bsf") (by decide)),
      tryCmpSelf_none_base _
        (ne_of_eq_of_ne (rfl : _ = str "bsf") (by decide)),
      tryFallthrough_none_two _ _ rfl,
      tryInvert_none_two _ _ rfl]
  cases hz : isTargetZen amd cpu with
  | false =>
      rw [tryBsf_none_zen _ _ _ _ _ hz]
      rw [tryImul_none_base _ _
            (ne_of_eq_of_ne (rfl : _ = str "bsf") (by decide)),
          tryAddSubZero_none_base _ _
            (ne_of_eq_of_ne (rfl : _ = str "bsf") (by decide))
            (ne_of_eq_of_ne (rfl : _ = str "bsf") (by decide)),
          tryShiftZero_none_base _ _
            (ne_of_eq_of_ne (rfl : _ = str "bsf") (by decide))
            (ne_of_eq_of_ne (rfl : _ = str "bsf") (by decide))
            (ne_of_eq_of_ne (rfl : _ = str "bsf") (by decide))
            (ne_of_eq_of_ne (rfl : _ = str "bsf") (by decide)),
          tryOrZero_none_base _ _
            (ne_of_eq_of_ne (rfl : _ = str "bsf") (by decide)),
          tryXorZero_none_base _ _
            (ne_of_eq_of_ne (rfl : _ = str "bsf") (by decide)),
          tryAndMinusOne_none_base _ _
            (ne_of_eq_of_ne (rfl : _ = str "bsf") (by decide)),
          tryAddOne_none_base _ _
            (ne_of_eq_of_ne (rfl : _ = str "bsf") (by decide)),
          trySubOne_none_base _ _
            (ne_of_eq_of_ne (rfl : _ = str "bsf") (by decide))]
      simp only [firstSome, Option.getD_none, hz, Bool.false_and,
        Bool.false_eq_true, if_false]
  | true =>
      cases hg : isZeroGuarded origLines lineNo (synSrc syn op1 op2) syn with
      | false =>
          rw [tryBsf_none_guard _ _ _ _ _ hg]
          rw [tryImul_none_base _ _
                (ne_of_eq_of_ne (rfl : _ = str "bsf") (by decide)),
              tryAddSubZero_none_base _ _
                (ne_of_eq_of_ne (rfl : _ = str "bsf") (by decide))
                (ne_of_eq_of_ne (rfl : _ = str "bsf") (by decide)),
              tryShiftZero_none_base _ _
                (ne_of_eq_of_ne (rfl : _ = str "bsf") (by decide))
                (ne_of_eq_of_ne (rfl : _ = str "bsf") (by decide))
                (ne_of_eq_of_ne (rfl : _ = str "bsf") (by decide))
                (ne_of_eq_of_ne (rfl : _ = str "bsf") (by decide)),
              tryOrZero_none_base _ _
                (ne_of_eq_of_ne (rfl : _ = str "bsf") (by decide)),
              tryXorZero_none_base _ _
                (ne_of_eq_of_ne (rfl : _ = str "bsf") (by decide)),
              tryAndMinusOne_none_base _ _
                (ne_of_eq_of_ne (rfl : _ = str "bsf") (by decide)),
              tryAddOne_none_base _ _
                (ne_of_eq_of_ne (rfl : _ = str "bsf") (by decide)),
              trySubOne_none_base _ _
                (ne_of_eq_of_ne (rfl : _ = str "bsf") (by decide))]
          simp only [firstSome, Option.getD_none, hz, hg, Bool.true_and,
            Bool.false_eq_true, if_false]
      | true =>
          rw [tryBsf_fire _ _ _ _ _ rfl rfl hdreg hsreg hz hg]
          simp only [firstSome, Option.getD_some, hz, hg, Bool.true_and,
            if_true]
          rfl

/-- Claim C8 (witness): the bsf theorem at a concrete zero-guarded Zen 3
instance, where the replacement fires. -/
theorem claim8_bsf_gating_witness :
    peepholeLine false true (str "zen3")
      [str "test rbx, rbx", str "jz .done", str "bsf rax, rbx"] 3
      (str "bsf rax, rbx") .intel =
      presReplace 3 (str "bsf_to_tzcnt") (str "bsf rax, rbx")
        (str "tzcnt rax, rbx") := by
  exact ((claim8_bsf_gating .intel [str "test rbx, rbx", str "jz .done",
      str "bsf rax, rbx"] 3 false true (str "zen3") (str "bsf rax, rbx")
      (str "bsf rax, rbx") [] [] (str "bsf") [' '] (str "rax, rbx")
      (str "rax") (str "rbx") [] [' ']
      rfl rfl rfl rfl rfl rfl rfl).1).trans (by rfl)

/-- Claim C9 (counterexample): the CFG builder does not give every block a
unique name: an input repeating the label "dup" yields two blocks that are
both named "dup". -/
theorem claim9_counterexample :
    ((buildCfg (buildIr (splitLines (str "dup:\nret\ndup:\nret\n")).1)).1.map
      (fun b => b.name)) = [str "dup", str "dup"] ∧
    ¬ ((buildCfg (buildIr (splitLines (str "dup:\nret\ndup:\nret\n")).1)).1.map
      (fun b => b.name)).Nodup :=
  ⟨rfl, by decide⟩

/-- Claim C9 (amended): block names need not be unique, but every edge the
CFG builder produces has a source and a target that equal the name of some
block of the block list. -/
theorem claim9_edges_reference_blocks (lines : List CStr) :
    ∀ e ∈ (buildCfg (buildIr lines)).2,
      (∃ b ∈ (buildCfg (buildIr lines)).1, b.name = e.source) ∧
      (∃ b ∈ (buildCfg (buildIr lines)).1, b.name = e.target) := by
  intro e he
  unfold buildCfg at he ⊢
  split at he
  · simp at he
  · simp only [] at he ⊢
    rename_i hir
    rw [if_neg hir]
    simp only []
    unfold cfgEdgesOf at he
    rcases mem_foldl_append _ _ _ e he with h | ⟨i, _, hfi⟩
    · simp at h
    · exact cfgEdgesFor_endpoints _ i e hfi

/-- Claim C9 (witness): the edge theorem at a concrete one-block loop. -/
theorem claim9_edges_reference_blocks_witness :
    (∃ b ∈ (buildCfg (buildIr [str "a:", str "jmp a"])).1,
       b.name = (⟨str "a", str "a"⟩ : CfgEdge).source) ∧
    (∃ b ∈ (buildCfg (buildIr [str "a:", str "jmp a"])).1,
       b.name = (⟨str "a", str "a"⟩ : CfgEdge).target) :=
  claim9_edges_reference_blocks [str "a:", str "jmp a"] ⟨str "a", str "a"⟩
    (by decide)

/-- Claim C10: when the optimization scan removes every stored line — here
the identity mov "mov rax, rax" with no trailing newline — or when
optimize has not yet run, `generate_assembly` falls back to the original
lines and emits the original text rather than the empty string. -/
theorem claim10_empty_fallback :
    (defaultRun (str "mov rax, rax")).optimizedLines = [] ∧
    generateAssembly (defaultRun (str "mov rax, rax")) = str "mov rax, rax" ∧
    generateAssembly (parseString createCtx (str "mov rax, rax")) =
      str "mov rax, rax" :=
  ⟨rfl, rfl, rfl⟩

end Asmopt
